import Mathlib

/-!
Verification development for the OpsOS restaurant operations core
(workflow engine, ETA calculator, offline event queue and sync engine).

The definitions below are a shallow embedding of the TypeScript source:
  * `src/lib/workflow-engine.ts`  — task-graph activation and completion
  * `src/lib/eta.ts`              — critical-path ETA calculator
  * `src/lib/offline/event-queue.ts` and `src/lib/offline/actions.ts`
                                  — event queue, offline mutations, sync push/pull

Database rows become Lean structures, Prisma/Dexie queries become list
filters, and each exported function becomes a pure state-transformer.
`Date` values are modelled as integer millisecond timestamps (server side)
or opaque ISO strings (client side, where only ordering-free storage
matters).  Prisma `Decimal` columns are modelled as `Option ℚ` (`none` for
SQL NULL); JavaScript truthiness of a `Decimal` object is that of a non-null
object, which the embeddings of the individual expressions reproduce.
Fire-and-forget realtime broadcasts (`emitToTenant`) and display-only
result fields (names, colours, station load percentages) are not part of
any verified property and are omitted from the state.
-/

/-- Runtime status of a task instance.  The source stores these as the
strings `pending`, `queued`, `in_progress`, `done`, `cancelled`
(`blocked`/`ready`/`active` in the specification's vocabulary map to
`pending`/`queued`/`in_progress`). -/
inductive TaskStatus where
  | pending
  | queued
  | in_progress
  | done
  | cancelled
deriving DecidableEq, Repr

/-- Rendering of a status back to the string used by the source, as it
appears inside error messages. -/
def statusText : TaskStatus → String
  | .pending => "pending"
  | .queued => "queued"
  | .in_progress => "in_progress"
  | .done => "done"
  | .cancelled => "cancelled"

/-- The `_syncStatus` tag on every local (IndexedDB) record: `loc` stands
for the source's `'local'` (a Lean keyword), `synced` and `modified` are
verbatim. -/
inductive SyncStatus where
  | loc
  | synced
  | modified
deriving DecidableEq, Repr

/-- Lifecycle status of a queued sync event
(`pending → syncing → synced / failed / conflict`). -/
inductive EventStatus where
  | pending
  | syncing
  | synced
  | failed
  | conflict
deriving DecidableEq, Repr

/-- Confidence signal attached to an order ETA. -/
inductive Confidence where
  | low
  | medium
  | high
deriving DecidableEq, Repr

-- ───────────────────────── Server-side data model ─────────────────────────

/-- A row of `task_instances` (the fields the core logic reads or writes). -/
structure TaskInstance where
  id : String
  tenantId : String
  orderId : String
  orderItemId : String
  taskDefId : String
  stationId : Option String
  status : TaskStatus
  dependsOn : List String
  estimatedMinutes : Option ℚ
  startedAt : Option ℤ
  completedAt : Option ℤ
  completedById : Option String
  assignedToId : Option String
deriving DecidableEq, Repr

/-- A row of `subtask_instances`. -/
structure SubtaskInstance where
  id : String
  taskInstanceId : String
  tenantId : String
  isCompleted : Bool
  completedAt : Option ℤ
  completedById : Option String
deriving DecidableEq, Repr

/-- A row of `task_durations` (one recorded completion sample). -/
structure DurationSample where
  tenantId : String
  workflowTemplateId : String
  taskDefId : String
  stationId : Option String
  durationSeconds : ℤ
deriving DecidableEq, Repr

/-- A row of `orders` (only the fields the engine touches). -/
structure OrderRec where
  id : String
  tenantId : String
  status : String
  actualReadyAt : Option ℤ
deriving DecidableEq, Repr

/-- A row of `order_items`. -/
structure OrderItemRec where
  id : String
  orderId : String
  menuItemId : String
  status : String
deriving DecidableEq, Repr

/-- A row of `menu_items` (only the workflow template link is relevant). -/
structure MenuItemRec where
  id : String
  workflowTemplateId : Option String
deriving DecidableEq, Repr

/-- The authoritative database state seen by `workflow-engine.ts`. -/
structure EngineState where
  tasks : List TaskInstance
  subtasks : List SubtaskInstance
  durations : List DurationSample
  orders : List OrderRec
  orderItems : List OrderItemRec
  menuItems : List MenuItemRec
deriving DecidableEq, Repr

-- ───────────────────────── Workflow engine ─────────────────────────

/-- `prisma.taskInstance.update({ where: { id }, data: { status } })`:
rewrite the status of the row(s) whose id matches. -/
def setStatus (tasks : List TaskInstance) (tid : String) (s : TaskStatus) :
    List TaskInstance :=
  tasks.map (fun t => if t.id = tid then { t with status := s } else t)

/-- `prisma.taskInstance.count({ where: { id: { in: deps }, status: 'done' } })`. -/
def depsDoneCount (tasks : List TaskInstance) (deps : List String) : Nat :=
  (tasks.filter (fun t => deps.contains t.id && t.status == TaskStatus.done)).length

/-- Body of the `for (const task of pendingTasks)` loop of
`activateReadyTasks`: a task with no dependencies, or with as many `done`
rows among its dependency ids as it has dependency entries, is promoted to
`queued`. -/
def actStep (acc : List TaskInstance × Nat) (task : TaskInstance) :
    List TaskInstance × Nat :=
  if task.dependsOn.isEmpty then
    (setStatus acc.1 task.id .queued, acc.2 + 1)
  else if depsDoneCount acc.1 task.dependsOn = task.dependsOn.length then
    (setStatus acc.1 task.id .queued, acc.2 + 1)
  else
    acc

/-- `activateReadyTasks(tenantId, orderId)` from `workflow-engine.ts`:
scan the order's `pending` tasks (snapshot taken up front) and promote the
ones whose dependencies are all `done`, returning the updated table and the
activation count. -/
def activateReadyTasks (tenantId orderId : String) (tasks : List TaskInstance) :
    List TaskInstance × Nat :=
  let pendingTasks := tasks.filter
    (fun t => t.tenantId == tenantId && t.orderId == orderId &&
      t.status == TaskStatus.pending)
  pendingTasks.foldl actStep (tasks, 0)

/-- `prisma.taskInstance.findFirst({ where: { id, tenantId } })`. -/
def findTask (tasks : List TaskInstance) (taskId tenantId : String) :
    Option TaskInstance :=
  tasks.find? (fun t => t.id == taskId && t.tenantId == tenantId)

/-- `startTask(taskId, userId, tenantId)`: legal only from `queued`; sets
`in_progress`, records `startedAt`, assigns the actor. -/
def startTask (taskId userId tenantId : String) (now : ℤ) (st : EngineState) :
    Except String EngineState :=
  match findTask st.tasks taskId tenantId with
  | none => .error "Task non trovato"
  | some task =>
    if task.status ≠ .queued then
      .error ("Task non avviabile (stato: " ++ statusText task.status ++ ")")
    else
      .ok { st with tasks := st.tasks.map (fun t =>
        if t.id = taskId then
          { t with status := .in_progress, assignedToId := some userId,
                   startedAt := some now }
        else t) }

/-- `checkOrderCompletion(tenantId, orderId)`: if every task of the order is
`done`/`cancelled`, mark the order `ready` (and its non-cancelled items
`done`); otherwise, if some task is `in_progress`, keep the order in
`preparing`.  Returns `(orderComplete, orderReady)`. -/
def checkOrderCompletion (tenantId orderId : String) (now : ℤ) (st : EngineState) :
    EngineState × Bool × Bool :=
  let allTasks := st.tasks.filter (fun t => t.tenantId == tenantId && t.orderId == orderId)
  let allDone := allTasks.all (fun t => t.status == .done || t.status == .cancelled)
  if allDone then
    let st' := { st with
      orders := st.orders.map (fun o =>
        if o.id = orderId then { o with status := "ready", actualReadyAt := some now } else o),
      orderItems := st.orderItems.map (fun i =>
        if i.orderId = orderId ∧ i.status ≠ "cancelled" then { i with status := "done" } else i) }
    (st', true, true)
  else
    let inProgress := allTasks.any (fun t => t.status == .in_progress)
    if inProgress then
      ({ st with orders := st.orders.map (fun o =>
          if o.id = orderId then { o with status := "preparing" } else o) },
       false, false)
    else
      (st, false, false)

/-- `completeTask(taskId, userId, tenantId)` from `workflow-engine.ts`:
legal from `queued` or `in_progress` only (any other status raises
`Task non completabile`); force-completes the task's incomplete subtasks;
records a duration sample when `startedAt` was set and the order item's
menu item carries a workflow template; marks the task `done` (backfilling
`startedAt`); activates dependents; checks order completion. -/
def completeTask (taskId userId tenantId : String) (now : ℤ) (st : EngineState) :
    Except String (EngineState × Bool × Bool) :=
  match findTask st.tasks taskId tenantId with
  | none => .error "Task non trovato"
  | some task =>
    if ¬ (task.status = .queued ∨ task.status = .in_progress) then
      .error ("Task non completabile (stato: " ++ statusText task.status ++ ")")
    else
      -- auto-complete the remaining subtasks of this task
      let taskSubs := st.subtasks.filter (fun s => s.taskInstanceId == taskId)
      let subtasks' :=
        if (taskSubs.filter (fun s => !s.isCompleted)).length > 0 then
          st.subtasks.map (fun s =>
            if s.taskInstanceId = taskId ∧ s.isCompleted = false then
              { s with isCompleted := true, completedAt := some now,
                       completedById := some userId }
            else s)
        else st.subtasks
      -- record a duration sample for historical tracking
      let durations' :=
        match task.startedAt with
        | none => st.durations
        | some startMs =>
          let durationSeconds := round (((now - startMs : ℤ) : ℚ) / 1000)
          match (st.orderItems.find? (fun i => i.id == task.orderItemId)).bind
              (fun oi => st.menuItems.find? (fun m => m.id == oi.menuItemId)) with
          | none => st.durations
          | some menuItem =>
            match menuItem.workflowTemplateId with
            | none => st.durations
            | some wId =>
              st.durations ++ [{ tenantId := tenantId, workflowTemplateId := wId,
                                 taskDefId := task.taskDefId, stationId := task.stationId,
                                 durationSeconds := durationSeconds }]
      -- complete the task itself
      let tasks' := st.tasks.map (fun t =>
        if t.id = taskId then
          { t with status := .done, completedAt := some now,
                   completedById := some userId,
                   startedAt := some (task.startedAt.getD now) }
        else t)
      -- activate dependent tasks
      let tasks'' := (activateReadyTasks tenantId task.orderId tasks').1
      let st' : EngineState :=
        { st with tasks := tasks'', subtasks := subtasks', durations := durations' }
      .ok (checkOrderCompletion tenantId task.orderId now st')

/-- `completeSubtask(taskId, subtaskId, userId, tenantId)`: idempotent
toggle of a subtask to completed. -/
def completeSubtask (taskId subtaskId userId tenantId : String) (now : ℤ)
    (st : EngineState) : Except String EngineState :=
  match st.subtasks.find? (fun s =>
      s.id == subtaskId && s.taskInstanceId == taskId && s.tenantId == tenantId) with
  | none => .error "Subtask non trovato"
  | some subtask =>
    if subtask.isCompleted then .ok st
    else
      .ok { st with subtasks := st.subtasks.map (fun s =>
        if s.id = subtaskId then
          { s with isCompleted := true, completedAt := some now,
                   completedById := some userId }
        else s) }

-- ───────────────────────── ETA calculator (`src/lib/eta.ts`) ─────────────────────────

/-- A row of `stations`. -/
structure Station where
  id : String
  tenantId : String
  name : String
  capacity : ℚ
  isActive : Bool
  taskTypes : List String
deriving DecidableEq, Repr

/-- Per-station queue summary produced by `getStationQueues`. -/
structure StationQueue where
  stationId : String
  stationName : String
  capacity : ℚ
  queuedTasks : ℕ
  avgTaskMinutes : ℚ
deriving DecidableEq, Repr

/-- `Number(t.estimatedMinutes) || 5`: a NULL column or a zero value both
fall back to the 5-minute default (a Prisma `Decimal` is converted to its
numeric value first, so zero is falsy here). -/
def numOr5 : Option ℚ → ℚ
  | none => 5
  | some x => if x = 0 then 5 else x

/-- `Number(task.estimatedMinutes || 5)`: only a NULL column falls back to
the default (a non-null `Decimal` object is truthy even when its value is
zero, so zero is kept). -/
def decOr5 : Option ℚ → ℚ
  | none => 5
  | some x => x

/-- `getStationQueues(tenantId)`: for each active station of the tenant,
count the `queued`/`in_progress` tasks assigned to it and average their
(defaulted) estimates; an empty queue averages to the 5-minute default.
The result is keyed by station id, in station order. -/
def getStationQueues (tenantId : String) (stations : List Station)
    (allTasks : List TaskInstance) : List (String × StationQueue) :=
  (stations.filter (fun s => s.tenantId == tenantId && s.isActive)).map (fun s =>
    let ts := allTasks.filter (fun t =>
      t.stationId == some s.id &&
      (t.status == TaskStatus.queued || t.status == TaskStatus.in_progress))
    let totalEstimated := ts.foldl (fun sum t => sum + numOr5 t.estimatedMinutes) 0
    let avgTask := if ts.length > 0 then totalEstimated / (ts.length : ℚ) else 5
    (s.id, { stationId := s.id, stationName := s.name, capacity := s.capacity,
             queuedTasks := ts.length, avgTaskMinutes := avgTask }))

/-- `Math.max(...)` over a non-empty list (`0` for the empty list, which the
source never reaches because the spread call is guarded by
`deps.length > 0`). -/
def listMax : List ℚ → ℚ
  | [] => 0
  | x :: xs => xs.foldl max x

/-- `Map.set` on an association list: overwrite the value at the first
occurrence of the key, keeping its position, or append a new entry. -/
def setAssoc {α : Type} : List (String × α) → String → α → List (String × α)
  | [], k, v => [(k, v)]
  | (k', v') :: rest, k, v =>
    if k' = k then (k, v) :: rest else (k', v') :: setAssoc rest k v

/-- `if (!m.has(k)) m.set(k, [])`. -/
def ensureKey (m : List (String × List String)) (k : String) :
    List (String × List String) :=
  if (m.lookup k).isSome then m else m ++ [(k, [])]

/-- `m.get(k)!.push(x)` (the key is known to be present). -/
def pushAssoc : List (String × List String) → String → String →
    List (String × List String)
  | [], _, _ => []
  | (k', v) :: rest, k, x =>
    if k' = k then (k', v ++ [x]) :: rest else (k', v) :: pushAssoc rest k x

/-- `new Map(tasks.map((t) => [t.id, t]))`. -/
def buildTaskMap (tasks : List TaskInstance) : List (String × TaskInstance) :=
  tasks.foldl (fun m t => setAssoc m t.id t) []

/-- The in-degree map: `inDegree.set(task.id, deps.length)` for every task. -/
def buildInDegree (tasks : List TaskInstance) : List (String × ℤ) :=
  tasks.foldl (fun m t => setAssoc m t.id (t.dependsOn.length : ℤ)) []

/-- The adjacency map `taskId → dependent task ids`, built exactly as the
source does (keys are created for every task and for every dependency id). -/
def buildAdjacency (tasks : List TaskInstance) : List (String × List String) :=
  tasks.foldl (fun adj t =>
    let adj1 := ensureKey adj t.id
    t.dependsOn.foldl (fun a dep => pushAssoc (ensureKey a dep) dep t.id) adj1) []

/-- Per-task ETA computation, the body of the Kahn loop of
`calculateOrderETA`: completed/cancelled tasks contribute 0; an
`in_progress` task contributes its remaining estimate; any other task
contributes the max of its dependencies' already-computed ETAs (0 for an
absent entry) plus the station queue wait plus its (defaulted) estimate. -/
def taskEtaValue (etas : List (String × ℚ)) (queues : List (String × StationQueue))
    (now : ℤ) (t : TaskInstance) : ℚ :=
  match t.status with
  | .done => 0
  | .cancelled => 0
  | .in_progress =>
    let elapsed : ℚ := match t.startedAt with
      | some s => ((now - s : ℤ) : ℚ) / 60000
      | none => 0
    max 0 (decOr5 t.estimatedMinutes - elapsed)
  | _ =>
    let maxDepETA :=
      if t.dependsOn.isEmpty then 0
      else listMax (t.dependsOn.map (fun d => (etas.lookup d).getD 0))
    let queueWaitMinutes : ℚ :=
      match t.stationId with
      | none => 0
      | some sid =>
        match queues.lookup sid with
        | none => 0
        | some sq => ((sq.queuedTasks : ℚ) * sq.avgTaskMinutes) / sq.capacity
    maxDepETA + queueWaitMinutes + decOr5 t.estimatedMinutes

/-- The Kahn-style traversal loop of `calculateOrderETA`.  `fuel` bounds the
number of pops; `calculateOrderETA` passes the number of tasks, which is an
upper bound on the pops the source's `while` loop can perform (every id is
enqueued at most once).  A popped id missing from the task map cannot occur
(the source asserts it with `!`); such a pop is skipped. -/
def kahnLoop (taskMap : List (String × TaskInstance))
    (adjacency : List (String × List String))
    (queues : List (String × StationQueue)) (now : ℤ) :
    Nat → List (String × ℤ) → List String → List (String × ℚ) →
    List (String × ℚ)
  | 0, _, _, etas => etas
  | _ + 1, _, [], etas => etas
  | fuel + 1, inDeg, tid :: rest, etas =>
    match taskMap.lookup tid with
    | none => kahnLoop taskMap adjacency queues now fuel inDeg rest etas
    | some t =>
      let etas' := etas ++ [(tid, taskEtaValue etas queues now t)]
      let step := ((adjacency.lookup tid).getD []).foldl
        (fun (p : List (String × ℤ) × List String) depId =>
          let nd := ((p.1.lookup depId).getD 0) - 1
          (setAssoc p.1 depId nd, if nd = 0 then p.2 ++ [depId] else p.2))
        (inDeg, rest)
      kahnLoop taskMap adjacency queues now fuel step.1 step.2 etas'

/-- The critical-path fold of `calculateOrderETA`:
`if (minutes > maxMinutes) { maxMinutes = minutes; criticalTaskId = taskId }`
starting from `(0, '')`. -/
def critStep (p : ℚ × String) (e : String × ℚ) : ℚ × String :=
  if e.2 > p.1 then (e.2, e.1) else p

/-- `taskBreakdown.get(criticalTaskId)!.isCriticalPath = true`: set the flag
of the first entry carrying the key. -/
def markFlag : List (String × Bool) → String → List (String × Bool)
  | [], _ => []
  | (k, b) :: rest, key =>
    if k = key then (k, true) :: rest else (k, b) :: markFlag rest key

/-- The part of the result of `calculateOrderETA` that carries verified
content: the per-task ETA map in traversal order, the order-level maximum,
the critical task id, the per-task critical-path flags and the confidence
signal (`totalMinutes` is the rounded maximum). -/
structure OrderETAResult where
  etas : List (String × ℚ)
  maxMinutes : ℚ
  criticalTaskId : String
  flags : List (String × Bool)
  confidence : Confidence
  totalMinutes : ℤ
deriving DecidableEq, Repr

/-- `calculateOrderETA(tenantId, orderId)` with the order's tasks and the
station queue map as explicit inputs (the source fetches them first and
then runs exactly this pure computation; the final write of
`estimatedReadyAt` back to the order row carries no verified content). -/
def calculateOrderETA (tasks : List TaskInstance)
    (queues : List (String × StationQueue)) (now : ℤ) : OrderETAResult :=
  if tasks.isEmpty then
    { etas := [], maxMinutes := 0, criticalTaskId := "", flags := [],
      confidence := .low, totalMinutes := 0 }
  else
    let taskMap := buildTaskMap tasks
    let inDeg := buildInDegree tasks
    let adjacency := buildAdjacency tasks
    let queue0 := (inDeg.filter (fun p => p.2 = 0)).map (fun p => p.1)
    let etas := kahnLoop taskMap adjacency queues now tasks.length inDeg queue0 []
    let mc := etas.foldl critStep (0, "")
    let flags0 := etas.map (fun e => (e.1, false))
    let flags :=
      if mc.2 ≠ "" ∧ (flags0.lookup mc.2).isSome then markFlag flags0 mc.2
      else flags0
    let hasHistorical := tasks.any (fun t =>
      match t.estimatedMinutes with
      | some x => decide (x > 0)
      | none => false)
    let confidence : Confidence :=
      if tasks.length < 3 then .low else if hasHistorical then .high else .medium
    { etas := etas, maxMinutes := mc.1, criticalTaskId := mc.2, flags := flags,
      confidence := confidence, totalMinutes := round mc.1 }

-- ───────────────────────── Claim-side ETA formula ─────────────────────────

/-- The specification's per-task ETA formula, written from the words of the
spec (§4.4): `done`/`cancelled` → 0 remaining; active →
`max(0, estimatedDuration − elapsedSinceStart)` (0 elapsed when the task was
never started); otherwise the max of the dependencies' ETAs plus the
station's queue wait (`instancesAhead × averageDuration / capacity`) plus
the task's estimated duration `est`.  Dependency ETAs are read from the
final per-task map `etas`; an id with no ETA contributes 0. -/
def specTaskETA (etas : List (String × ℚ)) (queues : List (String × StationQueue))
    (now : ℤ) (t : TaskInstance) (est : ℚ) : ℚ :=
  match t.status with
  | .done => 0
  | .cancelled => 0
  | .in_progress =>
    let elapsed : ℚ := match t.startedAt with
      | some s => ((now - s : ℤ) : ℚ) / 60000
      | none => 0
    max 0 (est - elapsed)
  | _ =>
    let maxDepETA :=
      if t.dependsOn.isEmpty then 0
      else listMax (t.dependsOn.map (fun d => (etas.lookup d).getD 0))
    let queueWaitMinutes : ℚ :=
      match t.stationId with
      | none => 0
      | some sid =>
        match queues.lookup sid with
        | none => 0
        | some sq => ((sq.queuedTasks : ℚ) * sq.avgTaskMinutes) / sq.capacity
    maxDepETA + queueWaitMinutes + est

/-- Decidable well-formedness check on a produced ETA map: every dependency
of every listed task is either listed before the task or not listed at all.
This holds for every acyclic instance graph (dependencies are popped before
their dependents); it is the hypothesis under which prefix ETA lookups agree
with final ones. -/
def depsBeforeOk (taskMap : List (String × TaskInstance))
    (full : List (String × ℚ)) : List (String × ℚ) → Bool
  | [] => true
  | (k, _) :: rest =>
    let pre := full.takeWhile (fun e => e.1 ≠ k)
    (match taskMap.lookup k with
     | none => true
     | some t => t.dependsOn.all (fun d =>
         (pre.lookup d).isSome || (full.lookup d).isNone)) &&
    depsBeforeOk taskMap full rest

-- ───────────────── Workflow definitions and `suggestOrderTime` ─────────────────

/-- A subtask entry of a workflow definition. -/
structure SubtaskDef where
  id : String
  name : String
  optional : Bool
deriving DecidableEq, Repr

/-- A task entry of a workflow definition (JSON field names kept). -/
structure WorkflowTaskDef where
  id : String
  name : String
  station_type : String
  estimated_minutes : ℚ
  depends_on : List String
  subtasks : List SubtaskDef
deriving DecidableEq, Repr

/-- A phase of a workflow definition. -/
structure PhaseDef where
  id : String
  name : String
  order : ℤ
  tasks : List WorkflowTaskDef
deriving DecidableEq, Repr

/-- A workflow definition: ordered phases of ordered tasks. -/
structure WorkflowDefinition where
  phases : List PhaseDef
deriving DecidableEq, Repr

/-- A menu item together with its (optional) workflow template, as
`suggestOrderTime` reads it. -/
structure MenuItemW where
  id : String
  workflowTemplate : Option WorkflowDefinition
deriving DecidableEq, Repr

/-- `needle` occurs as a contiguous run inside `hay` (the semantics of
JavaScript `String.prototype.includes`; the empty needle always occurs). -/
def charsStart : List Char → List Char → Bool
  | _, [] => true
  | [], _ :: _ => false
  | h :: hs, n :: ns => h == n && charsStart hs ns

/-- Containment of `needle` at any position of `hay`. -/
def charsContain : List Char → List Char → Bool
  | [], needle => needle.isEmpty
  | h :: hs, needle => charsStart (h :: hs) needle || charsContain hs needle

/-- `q.stationName.toLowerCase().includes(task.station_type)`. -/
def nameMatches (stationName stationType : String) : Bool :=
  charsContain stationName.toLower.toList stationType.toList

/-- `suggestOrderTime(tenantId, menuItemIds)` from `eta.ts` (the returned
`estimatedMinutes`): for each requested item with a workflow template, sum
over its phases the maximum of `queueWait + estimated_minutes` over the
phase's tasks — the station being the first queue whose lowercased name
contains the task's `station_type` — take the maximum across items, then
`Math.ceil(maxMinutes) + 2` (two buffer minutes for packaging/handoff).
Dependencies (`depends_on`) play no role here. -/
def suggestOrderTime (queues : List (String × StationQueue))
    (menuItems : List MenuItemW) : ℤ :=
  let maxMinutes := menuItems.foldl (fun (mm : ℚ) item =>
    match item.workflowTemplate with
    | none => mm
    | some defn =>
      let phaseMinutes := defn.phases.map (fun phase =>
        phase.tasks.foldl (fun (phaseMax : ℚ) task =>
          let sid := (queues.find? (fun p =>
            nameMatches p.2.stationName task.station_type)).map (fun p => p.1)
          let waitTime : ℚ :=
            match sid with
            | none => 0
            | some s =>
              match queues.lookup s with
              | none => 0
              | some sq => ((sq.queuedTasks : ℚ) * sq.avgTaskMinutes) / sq.capacity
          max phaseMax (waitTime + task.estimated_minutes)) 0)
      let itemMinutes := phaseMinutes.foldl (· + ·) 0
      max mm itemMinutes) 0
  Int.ceil maxMinutes + 2

/-- Hypothetical task instances for a workflow definition, the comparison
object named by the claim: one `pending` instance per task of every phase,
with the definition-scoped ids as instance ids, dependencies taken verbatim
and the station resolved through a `station_type → station id` map, exactly
as `instantiateWorkflow` would create them for a fresh order. -/
def hypotheticalInstances (tenantId orderId : String)
    (stationByType : List (String × String)) (defn : WorkflowDefinition) :
    List TaskInstance :=
  defn.phases.flatMap (fun phase => phase.tasks.map (fun td =>
    { id := td.id, tenantId := tenantId, orderId := orderId,
      orderItemId := "item", taskDefId := td.id,
      stationId := stationByType.lookup td.station_type,
      status := .pending, dependsOn := td.depends_on,
      estimatedMinutes := some td.estimated_minutes,
      startedAt := none, completedAt := none,
      completedById := none, assignedToId := none }))

/-- The amended description of `suggestOrderTime`, written independently of
the embedding's fold shapes: per item, the sum over phases of the maximal
`queueWait + estimated_minutes` of the phase, maximised over the items (an
item without a template contributes nothing). -/
def specSuggestMinutes (queues : List (String × StationQueue))
    (menuItems : List MenuItemW) : ℚ :=
  listMax (0 :: menuItems.map (fun item =>
    match item.workflowTemplate with
    | none => 0
    | some defn =>
      (defn.phases.map (fun phase =>
        listMax (0 :: phase.tasks.map (fun task =>
          let wait : ℚ :=
            match queues.find? (fun p =>
                nameMatches p.2.stationName task.station_type) with
            | none => 0
            | some p => ((p.2.queuedTasks : ℚ) * p.2.avgTaskMinutes) / p.2.capacity
          wait + task.estimated_minutes)))).sum))

-- ───────────────── Local (IndexedDB) data model and offline actions ─────────────────

/-- A record of the local `syncEvents` table (`src/lib/offline/db.ts`). -/
structure SyncEvent where
  id : String
  sequence : ℕ
  type : String
  entityType : String
  entityId : String
  status : EventStatus
  retryCount : ℕ
  lastError : Option String
deriving DecidableEq, Repr

/-- A record of the local `tasks` table (`LocalTask`); client timestamps are
opaque ISO strings. -/
structure LocalTask where
  id : String
  tenantId : String
  orderId : String
  status : TaskStatus
  dependsOn : List String
  estimatedMinutes : Option ℚ
  startedAt : Option String
  completedAt : Option String
  completedById : Option String
  assignedToId : Option String
  syncStatus : SyncStatus
deriving DecidableEq, Repr

/-- A record of the local `subtasks` table (`LocalSubtask`). -/
structure LocalSubtask where
  id : String
  taskInstanceId : String
  tenantId : String
  isCompleted : Bool
  completedAt : Option String
  completedById : Option String
  syncStatus : SyncStatus
deriving DecidableEq, Repr

/-- A record of the local `orders` table (`LocalOrder`), reduced to the
fields the verified actions touch. -/
structure LocalOrder where
  id : String
  tenantId : String
  status : String
  actualReadyAt : Option String
  syncStatus : SyncStatus
deriving DecidableEq, Repr

/-- A record of the local `deliveries` table (`LocalDelivery`). -/
structure LocalDelivery where
  id : String
  tenantId : String
  orderId : String
  status : String
  syncStatus : SyncStatus
deriving DecidableEq, Repr

/-- The client-side IndexedDB state: the mirrored operational tables, the
event queue, and the per-session sequence counter of `event-queue.ts`. -/
structure LocalDB where
  orders : List LocalOrder
  tasks : List LocalTask
  subtasks : List LocalSubtask
  deliveries : List LocalDelivery
  events : List SyncEvent
  seqCounter : ℕ
deriving DecidableEq, Repr

/-- `enqueueEvent(...)`: assign the next per-session sequence, append a
`pending` event with `retryCount` 0. -/
def enqueueEvent (db : LocalDB) (type entityType entityId : String) : LocalDB :=
  let seq := db.seqCounter + 1
  { db with
    seqCounter := seq,
    events := db.events ++ [{ id := "local_evt_" ++ toString seq, sequence := seq,
                              type := type, entityType := entityType,
                              entityId := entityId, status := .pending,
                              retryCount := 0, lastError := none }] }

/-- `startTaskOffline`: unconditional local update to `in_progress`
(a Dexie `update` on a missing key is a no-op) followed by an enqueue. -/
def startTaskOffline (tenantId userId taskId : String) (now : String)
    (db : LocalDB) : LocalDB :=
  let db' := { db with tasks := db.tasks.map (fun t =>
    if t.id = taskId then
      { t with status := .in_progress, assignedToId := some userId,
               startedAt := some now, syncStatus := .modified }
    else t) }
  enqueueEvent db' "task.start" "task" taskId

/-- `completeTaskOffline`: mark the task `done` (backfilling `startedAt`),
force-complete all its subtasks, promote `pending` dependents whose
dependencies are all `done` in the snapshot taken after the completion, and
mark the order `ready` when every task of the order is `done`/`cancelled`.
Fails only when the task does not exist locally. -/
def completeTaskOffline (tenantId userId taskId : String) (now : String)
    (db : LocalDB) : Except String (LocalDB × Bool) :=
  match db.tasks.find? (fun t => t.id == taskId) with
  | none => .error "Task non trovato"
  | some task =>
    let tasks1 := db.tasks.map (fun t =>
      if t.id = taskId then
        { t with status := .done, completedAt := some now,
                 completedById := some userId,
                 startedAt := some (task.startedAt.getD now),
                 syncStatus := .modified }
      else t)
    let subtasks1 := db.subtasks.map (fun s =>
      if s.taskInstanceId = taskId then
        { s with isCompleted := true, completedAt := some now,
                 completedById := some userId, syncStatus := .modified }
      else s)
    let allOrderTasks := tasks1.filter (fun t =>
      t.orderId == task.orderId && t.tenantId == tenantId)
    let tasks2 := allOrderTasks.foldl (fun cur depTask =>
      if depTask.status ≠ TaskStatus.pending then cur
      else if ¬ depTask.dependsOn.contains taskId then cur
      else if depTask.dependsOn.all (fun depId =>
          match allOrderTasks.find? (fun t => t.id == depId) with
          | some dep => dep.status == TaskStatus.done
          | none => false) then
        cur.map (fun t =>
          if t.id = depTask.id then
            { t with status := .queued, syncStatus := .modified }
          else t)
      else cur) tasks1
    let updatedTasks := tasks2.filter (fun t =>
      t.orderId == task.orderId && t.tenantId == tenantId)
    let allDone := updatedTasks.all (fun t =>
      t.status == TaskStatus.done || t.status == TaskStatus.cancelled)
    let orders' :=
      if allDone then
        db.orders.map (fun o =>
          if o.id = task.orderId then
            { o with status := "ready", actualReadyAt := some now,
                     syncStatus := .modified }
          else o)
      else db.orders
    let db1 := { db with tasks := tasks2, subtasks := subtasks1, orders := orders' }
    .ok (enqueueEvent db1 "task.complete" "task" taskId, allDone)

/-- `completeSubtaskOffline`: unconditional local completion of the subtask
followed by an enqueue. -/
def completeSubtaskOffline (tenantId userId taskId subtaskId : String)
    (now : String) (db : LocalDB) : LocalDB :=
  let db' := { db with subtasks := db.subtasks.map (fun s =>
    if s.id = subtaskId then
      { s with isCompleted := true, completedAt := some now,
               completedById := some userId, syncStatus := .modified }
    else s) }
  enqueueEvent db' "subtask.complete" "subtask" subtaskId

-- ───────────────── Event queue (`event-queue.ts`) ─────────────────

/-- Ordered insertion into a list sorted by ascending `sequence`. -/
def insertBySeq (e : SyncEvent) : List SyncEvent → List SyncEvent
  | [] => [e]
  | x :: xs =>
    if e.sequence ≤ x.sequence then e :: x :: xs else x :: insertBySeq e xs

/-- `sortBy('sequence')`. -/
def sortBySeq (l : List SyncEvent) : List SyncEvent :=
  l.foldr insertBySeq []

/-- `getPendingEvents()`: the `pending` events in ascending sequence order. -/
def getPendingEvents (events : List SyncEvent) : List SyncEvent :=
  sortBySeq (events.filter (fun e => e.status == EventStatus.pending))

/-- `getFailedEvents()`: the `failed` events in ascending sequence order. -/
def getFailedEvents (events : List SyncEvent) : List SyncEvent :=
  sortBySeq (events.filter (fun e => e.status == EventStatus.failed))

/-- `markEventFailed(eventId, error)`: a missing event is ignored; otherwise
the event's `retryCount` is bumped, the error recorded, and the status set
to `conflict` when the pre-increment count has reached 5, `failed`
otherwise. -/
def markEventFailed (events : List SyncEvent) (eventId error : String) :
    List SyncEvent :=
  match events.find? (fun e => e.id == eventId) with
  | none => events
  | some ev =>
    events.map (fun e =>
      if e.id = eventId then
        { e with status := if ev.retryCount ≥ 5 then .conflict else .failed,
                 lastError := some error, retryCount := ev.retryCount + 1 }
      else e)

/-- `markEventSynced(eventId)` (the `syncedAt` bookkeeping carries no
verified content). -/
def markEventSynced (events : List SyncEvent) (eventId : String) :
    List SyncEvent :=
  events.map (fun e => if e.id = eventId then { e with status := .synced } else e)

-- ───────────────── Sync engine push (`actions.ts`) ─────────────────

/-- Response classes of one authoritative push, as `pushSingleEvent`
distinguishes them: 2xx success, 409 conflict, other 4xx client error,
5xx/network failure. -/
inductive PushOutcome where
  | ok
  | conflict409
  | clientError (msg : String)
  | serverError (msg : String)
deriving DecidableEq, Repr

/-- `pushSingleEvent(eventId)`: re-read the event (skip when missing or
already `synced`), issue the request, then mark `synced` on success or 409
(server-authoritative supersession) and `failed` otherwise.  The second
component accumulates the sequences successfully applied to the
authoritative side, in application order. -/
def pushSingleEvent (outcome : SyncEvent → PushOutcome)
    (acc : List SyncEvent × List ℕ) (e : SyncEvent) :
    List SyncEvent × List ℕ :=
  match acc.1.find? (fun x => x.id == e.id) with
  | none => acc
  | some cur =>
    if cur.status = .synced then acc
    else
      match outcome cur with
      | .ok => (markEventSynced acc.1 cur.id, acc.2 ++ [cur.sequence])
      | .conflict409 => (markEventSynced acc.1 cur.id, acc.2)
      | .clientError msg => (markEventFailed acc.1 cur.id msg, acc.2)
      | .serverError msg => (markEventFailed acc.1 cur.id msg, acc.2)

/-- One run of `pushEvents()`: first retry the `failed` events, then push
the `pending` events (re-queried after the retry pass), each batch in
ascending sequence order.  Returns the updated queue and the log of
sequences applied to the authoritative side. -/
def pushEvents (outcome : SyncEvent → PushOutcome) (events : List SyncEvent) :
    List SyncEvent × List ℕ :=
  let r1 := (getFailedEvents events).foldl (pushSingleEvent outcome) (events, [])
  (getPendingEvents r1.1).foldl (pushSingleEvent outcome) r1

-- ───────────────── Sync engine pull (`actions.ts`) ─────────────────

/-- An order as returned by `GET /api/orders` (projected to the mirrored
fields). -/
structure ServerOrder where
  id : String
  tenantId : String
  status : String
  actualReadyAt : Option String
deriving DecidableEq, Repr

/-- A subtask as nested in `GET /api/tasks`. -/
structure ServerSubtask where
  id : String
  taskInstanceId : String
  tenantId : String
  isCompleted : Bool
  completedAt : Option String
  completedById : Option String
deriving DecidableEq, Repr

/-- A task as returned by `GET /api/tasks`. -/
structure ServerTask where
  id : String
  tenantId : String
  orderId : String
  status : TaskStatus
  dependsOn : List String
  estimatedMinutes : Option ℚ
  startedAt : Option String
  completedAt : Option String
  completedById : Option String
  assignedToId : Option String
  subtasks : List ServerSubtask
deriving DecidableEq, Repr

/-- A delivery as returned by `GET /api/deliveries`. -/
structure ServerDelivery where
  id : String
  tenantId : String
  orderId : String
  status : String
deriving DecidableEq, Repr

/-- Dexie `table.put`: replace the record with the same primary key, or
append a new one. -/
def putById {α : Type} (getId : α → String) (l : List α) (x : α) : List α :=
  if l.any (fun y => getId y == getId x) then
    l.map (fun y => if getId y = getId x then x else y)
  else l ++ [x]

/-- `pullActiveOrders()`: for each pulled order, skip it when the local copy
has `_syncStatus === 'local'`, otherwise `put` the server copy with
`_syncStatus: 'synced'` (note: a local copy in state `modified` is *not*
skipped). -/
def pullActiveOrders (serverOrders : List ServerOrder) (orders : List LocalOrder) :
    List LocalOrder :=
  serverOrders.foldl (fun cur so =>
    let existing := cur.find? (fun o => o.id == so.id)
    match existing with
    | some ex =>
      if ex.syncStatus = .loc then cur
      else putById (fun o => o.id) cur
        { id := so.id, tenantId := so.tenantId, status := so.status,
          actualReadyAt := so.actualReadyAt, syncStatus := .synced }
    | none => putById (fun o => o.id) cur
        { id := so.id, tenantId := so.tenantId, status := so.status,
          actualReadyAt := so.actualReadyAt, syncStatus := .synced }) orders

/-- `pullActiveTasks()`: for each pulled task, skip it when a local copy
exists whose `_syncStatus` is not `synced`; otherwise `put` the server copy
(and unconditionally upsert its subtasks) with `_syncStatus: 'synced'`. -/
def pullActiveTasks (serverTasks : List ServerTask)
    (state : List LocalTask × List LocalSubtask) :
    List LocalTask × List LocalSubtask :=
  serverTasks.foldl (fun cur stk =>
    match cur.1.find? (fun t => t.id == stk.id) with
    | some ex =>
      if ex.syncStatus ≠ .synced then cur
      else
        (putById (fun t => t.id) cur.1
          { id := stk.id, tenantId := stk.tenantId, orderId := stk.orderId,
            status := stk.status, dependsOn := stk.dependsOn,
            estimatedMinutes := stk.estimatedMinutes, startedAt := stk.startedAt,
            completedAt := stk.completedAt, completedById := stk.completedById,
            assignedToId := stk.assignedToId, syncStatus := .synced },
         stk.subtasks.foldl (fun subs ss => putById (fun s => s.id) subs
           { id := ss.id, taskInstanceId := ss.taskInstanceId,
             tenantId := ss.tenantId, isCompleted := ss.isCompleted,
             completedAt := ss.completedAt, completedById := ss.completedById,
             syncStatus := .synced }) cur.2)
    | none =>
        (putById (fun t => t.id) cur.1
          { id := stk.id, tenantId := stk.tenantId, orderId := stk.orderId,
            status := stk.status, dependsOn := stk.dependsOn,
            estimatedMinutes := stk.estimatedMinutes, startedAt := stk.startedAt,
            completedAt := stk.completedAt, completedById := stk.completedById,
            assignedToId := stk.assignedToId, syncStatus := .synced },
         stk.subtasks.foldl (fun subs ss => putById (fun s => s.id) subs
           { id := ss.id, taskInstanceId := ss.taskInstanceId,
             tenantId := ss.tenantId, isCompleted := ss.isCompleted,
             completedAt := ss.completedAt, completedById := ss.completedById,
             syncStatus := .synced }) cur.2)) state

/-- `pullActiveDeliveries()`: skip when a local copy exists whose
`_syncStatus` is not `synced`, otherwise `put` the server copy. -/
def pullActiveDeliveries (serverDeliveries : List ServerDelivery)
    (deliveries : List LocalDelivery) : List LocalDelivery :=
  serverDeliveries.foldl (fun cur sd =>
    match cur.find? (fun d => d.id == sd.id) with
    | some ex =>
      if ex.syncStatus ≠ .synced then cur
      else putById (fun d => d.id) cur
        { id := sd.id, tenantId := sd.tenantId, orderId := sd.orderId,
          status := sd.status, syncStatus := .synced }
    | none => putById (fun d => d.id) cur
        { id := sd.id, tenantId := sd.tenantId, orderId := sd.orderId,
          status := sd.status, syncStatus := .synced }) deliveries

-- ───────────────── Operation step relations ─────────────────

/-- The authoritative-side operations of the activation/completion state
machine (§4.2): activation scans, `start`, `complete`, `completeSubtask`. -/
inductive ServerOp where
  | activate (tenantId orderId : String)
  | start (taskId userId tenantId : String) (now : ℤ)
  | complete (taskId userId tenantId : String) (now : ℤ)
  | completeSub (taskId subtaskId userId tenantId : String) (now : ℤ)

/-- Apply one authoritative operation; `none` when the source throws. -/
def applyServerOp : ServerOp → EngineState → Option EngineState
  | .activate tn o, st =>
    some { st with tasks := (activateReadyTasks tn o st.tasks).1 }
  | .start tid u tn now, st => (startTask tid u tn now st).toOption
  | .complete tid u tn now, st =>
    ((completeTask tid u tn now st).toOption).map (fun r => r.1)
  | .completeSub tid sid u tn now, st => (completeSubtask tid sid u tn now st).toOption

/-- One successful authoritative transition. -/
def ServerStep (st st' : EngineState) : Prop :=
  ∃ op, applyServerOp op st = some st'

/-- The client-side mirror operations from `offline/actions.ts`. -/
inductive OfflineOp where
  | start (tenantId userId taskId : String) (now : String)
  | complete (tenantId userId taskId : String) (now : String)
  | completeSub (tenantId userId taskId subtaskId : String) (now : String)

/-- Apply one local mirror operation; `none` when the source throws. -/
def applyOfflineOp : OfflineOp → LocalDB → Option LocalDB
  | .start tn u tid now, db => some (startTaskOffline tn u tid now db)
  | .complete tn u tid now, db =>
    ((completeTaskOffline tn u tid now db).toOption).map (fun r => r.1)
  | .completeSub tn u tid sid now, db =>
    some (completeSubtaskOffline tn u tid sid now db)

/-- One successful local transition. -/
def OfflineStep (db db' : LocalDB) : Prop :=
  ∃ op, applyOfflineOp op db = some db'

/-- Activation monotonicity, phrased backwards: every task that is
`blocked` (`pending`) in the new table was already `blocked` in the old
one — equivalently, no operation sends a task back to `blocked`. -/
def PendingBack {α : Type} (getId : α → String) (getStatus : α → TaskStatus)
    (old new : List α) : Prop :=
  ∀ b ∈ new, getStatus b = .pending →
    ∃ a ∈ old, getId a = getId b ∧ getStatus a = .pending

-- ───────────────── Concrete fixtures for witnesses and counterexamples ─────────────────

/-- A queued, already-started task with a menu item carrying a workflow
template, so that completing it records a duration sample. -/
def exTask1 : TaskInstance :=
  { id := "t1", tenantId := "tn", orderId := "o1", orderItemId := "oi1",
    taskDefId := "td1", stationId := some "s1", status := .queued,
    dependsOn := [], estimatedMinutes := some 3, startedAt := some 0,
    completedAt := none, completedById := none, assignedToId := some "u1" }

/-- Initial authoritative state for the double-completion scenario. -/
def exState0 : EngineState :=
  { tasks := [exTask1], subtasks := [], durations := [],
    orders := [{ id := "o1", tenantId := "tn", status := "preparing",
                 actualReadyAt := none }],
    orderItems := [{ id := "oi1", orderId := "o1", menuItemId := "m1",
                     status := "pending" }],
    menuItems := [{ id := "m1", workflowTemplateId := some "w1" }] }

/-- The state after the first (successful) completion of `t1`. -/
def exState1 : EngineState :=
  match completeTask "t1" "u1" "tn" 60000 exState0 with
  | .ok r => r.1
  | .error _ => exState0

/-- A cancelled task and a `pending` task depending on it. -/
def c2TaskA : TaskInstance :=
  { id := "a", tenantId := "tn", orderId := "o1", orderItemId := "oi1",
    taskDefId := "tda", stationId := none, status := .cancelled,
    dependsOn := [], estimatedMinutes := some 2, startedAt := none,
    completedAt := none, completedById := none, assignedToId := none }

/-- The dependent of the cancelled task. -/
def c2TaskB : TaskInstance :=
  { id := "b", tenantId := "tn", orderId := "o1", orderItemId := "oi1",
    taskDefId := "tdb", stationId := none, status := .pending,
    dependsOn := ["a"], estimatedMinutes := some 2, startedAt := none,
    completedAt := none, completedById := none, assignedToId := none }

/-- The order table for the cancelled-dependency scenario. -/
def c2Tasks : List TaskInstance := [c2TaskA, c2TaskB]

/-- A finished task of the ETA fixture order. -/
def c3TaskA : TaskInstance :=
  { id := "a", tenantId := "tn", orderId := "o1", orderItemId := "oi1",
    taskDefId := "tda", stationId := none, status := .done,
    dependsOn := [], estimatedMinutes := some 2, startedAt := some 0,
    completedAt := some 100000, completedById := some "u1", assignedToId := none }

/-- A running task of the ETA fixture order (2 minutes elapsed at the
fixture's `now`). -/
def c3TaskB : TaskInstance :=
  { id := "b", tenantId := "tn", orderId := "o1", orderItemId := "oi1",
    taskDefId := "tdb", stationId := some "s1", status := .in_progress,
    dependsOn := [], estimatedMinutes := some 10, startedAt := some 0,
    completedAt := none, completedById := none, assignedToId := some "u1" }

/-- A queued task of the ETA fixture order, waiting on both others and on a
loaded station. -/
def c3TaskC : TaskInstance :=
  { id := "c", tenantId := "tn", orderId := "o1", orderItemId := "oi1",
    taskDefId := "tdc", stationId := some "s1", status := .queued,
    dependsOn := ["a", "b"], estimatedMinutes := some 4, startedAt := none,
    completedAt := none, completedById := none, assignedToId := none }

/-- The ETA fixture order. -/
def c3Tasks : List TaskInstance := [c3TaskA, c3TaskB, c3TaskC]

/-- A station queue with two tasks of three average minutes ahead at
capacity two (a three-minute wait). -/
def c3Queues : List (String × StationQueue) :=
  [("s1", { stationId := "s1", stationName := "Forno", capacity := 2,
            queuedTasks := 2, avgTaskMinutes := 3 })]

/-- The fixture's clock: two minutes after the running task started. -/
def c3Now : ℤ := 120000

/-- Three-task order in which exactly one task has a positive estimate. -/
def c6Tasks : List TaskInstance :=
  [{ id := "x", tenantId := "tn", orderId := "o1", orderItemId := "oi1",
     taskDefId := "tdx", stationId := none, status := .queued,
     dependsOn := [], estimatedMinutes := some 5, startedAt := none,
     completedAt := none, completedById := none, assignedToId := none },
   { id := "y", tenantId := "tn", orderId := "o1", orderItemId := "oi1",
     taskDefId := "tdy", stationId := none, status := .queued,
     dependsOn := [], estimatedMinutes := some 0, startedAt := none,
     completedAt := none, completedById := none, assignedToId := none },
   { id := "z", tenantId := "tn", orderId := "o1", orderItemId := "oi1",
     taskDefId := "tdz", stationId := none, status := .queued,
     dependsOn := [], estimatedMinutes := some 0, startedAt := none,
     completedAt := none, completedById := none, assignedToId := none }]

/-- A locally modified order (completed offline, not yet pushed). -/
def c4LocalOrder : LocalOrder :=
  { id := "o1", tenantId := "tn", status := "ready",
    actualReadyAt := some "2026-10-11T12:00:00Z", syncStatus := .modified }

/-- The authoritative copy of the same order, still `preparing`. -/
def c4ServerOrder : ServerOrder :=
  { id := "o1", tenantId := "tn", status := "preparing", actualReadyAt := none }

/-- A locally modified task mirror. -/
def c4LocalTask : LocalTask :=
  { id := "t1", tenantId := "tn", orderId := "o1", status := .done,
    dependsOn := [], estimatedMinutes := some 3, startedAt := some "s",
    completedAt := some "c", completedById := some "u1", assignedToId := none,
    syncStatus := .modified }

/-- The authoritative copy of the same task, still `queued`. -/
def c4ServerTask : ServerTask :=
  { id := "t1", tenantId := "tn", orderId := "o1", status := .queued,
    dependsOn := [], estimatedMinutes := some 3, startedAt := none,
    completedAt := none, completedById := none, assignedToId := none,
    subtasks := [] }

/-- Three pending events with sequences 1, 2, 3. -/
def c5Events : List SyncEvent :=
  [{ id := "e1", sequence := 1, type := "task.complete", entityType := "task",
     entityId := "t1", status := .pending, retryCount := 0, lastError := none },
   { id := "e2", sequence := 2, type := "task.complete", entityType := "task",
     entityId := "t2", status := .pending, retryCount := 0, lastError := none },
   { id := "e3", sequence := 3, type := "task.complete", entityType := "task",
     entityId := "t3", status := .pending, retryCount := 0, lastError := none }]

/-- A server that rejects the first event with a 500 and accepts the rest. -/
def c5Outcome1 : SyncEvent → PushOutcome :=
  fun e => if e.sequence = 1 then .serverError "HTTP 500" else .ok

/-- First push round: event 1 fails, events 2 and 3 are applied. -/
def c5Round1 : List SyncEvent × List ℕ := pushEvents c5Outcome1 c5Events

/-- Second push round: the retried event 1 is applied last. -/
def c5Round2 : List SyncEvent × List ℕ :=
  pushEvents (fun _ => .ok) c5Round1.1

/-- The cross-round application log. -/
def c5Log : List ℕ := c5Round1.2 ++ c5Round2.2

/-- An event at the retry threshold and an event already in `conflict`. -/
def c7Events : List SyncEvent :=
  [{ id := "f1", sequence := 1, type := "task.complete", entityType := "task",
     entityId := "t1", status := .failed, retryCount := 5, lastError := none },
   { id := "f2", sequence := 2, type := "task.complete", entityType := "task",
     entityId := "t2", status := .conflict, retryCount := 6,
     lastError := some "HTTP 500" }]

/-- A one-phase, one-task workflow definition (three estimated minutes,
no dependencies). -/
def c8Def : WorkflowDefinition :=
  { phases := [{ id := "p1", name := "Preparazione", order := 1,
                 tasks := [{ id := "t1", name := "Solo", station_type := "forno",
                             estimated_minutes := 3, depends_on := [],
                             subtasks := [] }] }] }

/-- The menu item carrying that definition. -/
def c8Item : MenuItemW := { id := "m1", workflowTemplate := some c8Def }

/-- A queued task and an untouched pending task, for the monotonicity
witness. -/
def c9State : EngineState :=
  { tasks :=
      [{ id := "x", tenantId := "tn", orderId := "o1", orderItemId := "oi1",
         taskDefId := "tdx", stationId := none, status := .queued,
         dependsOn := [], estimatedMinutes := some 2, startedAt := none,
         completedAt := none, completedById := none, assignedToId := none },
       { id := "y", tenantId := "tn", orderId := "o1", orderItemId := "oi1",
         taskDefId := "tdy", stationId := none, status := .pending,
         dependsOn := ["x", "w"], estimatedMinutes := some 2, startedAt := none,
         completedAt := none, completedById := none, assignedToId := none }],
    subtasks := [], durations := [],
    orders := [{ id := "o1", tenantId := "tn", status := "preparing",
                 actualReadyAt := none }],
    orderItems := [], menuItems := [] }

/-- The state after starting task `x` in `c9State`. -/
def c9State' : EngineState :=
  match startTask "x" "u1" "tn" 1000 c9State with
  | .ok st => st
  | .error _ => c9State

/-- The untouched pending task of `c9State` (unchanged by starting `x`). -/
def c9TaskY : TaskInstance :=
  { id := "y", tenantId := "tn", orderId := "o1", orderItemId := "oi1",
    taskDefId := "tdy", stationId := none, status := .pending,
    dependsOn := ["x", "w"], estimatedMinutes := some 2, startedAt := none,
    completedAt := none, completedById := none, assignedToId := none }

/-- The untouched pending local task of `c9Db`. -/
def c9LocalY : LocalTask :=
  { id := "y", tenantId := "tn", orderId := "o1", status := .pending,
    dependsOn := ["x", "w"], estimatedMinutes := some 2, startedAt := none,
    completedAt := none, completedById := none, assignedToId := none,
    syncStatus := .synced }

/-- Local mirror with a queued task and an untouched pending task. -/
def c9Db : LocalDB :=
  { orders := [{ id := "o1", tenantId := "tn", status := "preparing",
                 actualReadyAt := none, syncStatus := .synced }],
    tasks :=
      [{ id := "x", tenantId := "tn", orderId := "o1", status := .queued,
         dependsOn := [], estimatedMinutes := some 2, startedAt := none,
         completedAt := none, completedById := none, assignedToId := none,
         syncStatus := .synced },
       c9LocalY],
    subtasks := [], deliveries := [], events := [], seqCounter := 0 }

/-- The local mirror after starting task `x` in `c9Db`. -/
def c9Db' : LocalDB := startTaskOffline "tn" "u1" "x" "2026-10-11T12:00:00Z" c9Db

/-- Element-wise relation underlying an `activateReadyTasks` run: a row is
unchanged or was promoted from `pending` to `queued`. -/
def TRel (a b : TaskInstance) : Prop :=
  b = a ∨ (a.status = .pending ∧ b = { a with status := .queued })

/-- An activation run relates the old and new task tables row by row. -/
def ActRel (old new : List TaskInstance) : Prop := List.Forall₂ TRel old new

/-- Specification of the entries a Kahn-loop run appends after `pre`: each
new entry's value is `taskEtaValue` of the map as it stood when the entry
was emitted, and its key resolves in the task map. -/
def GoodExt (taskMap : List (String × TaskInstance))
    (queues : List (String × StationQueue)) (now : ℤ) :
    List (String × ℚ) → List (String × ℚ) → Prop
  | _, [] => True
  | pre, e :: rest =>
    (∃ t, taskMap.lookup e.1 = some t ∧ e.2 = taskEtaValue pre queues now t) ∧
    GoodExt taskMap queues now (pre ++ [e]) rest

-- ═════════════════════════ Helper lemmas ═════════════════════════

section Helpers

variable {α : Type}

theorem find?_update_ne (getId : α → String) (f : α → α)
    (hid : ∀ x, getId (f x) = getId x) (tid tid' : String) (h : tid' ≠ tid) :
    ∀ l : List α,
      (l.map (fun x => if getId x = tid' then f x else x)).find?
        (fun u => getId u == tid) = l.find? (fun u => getId u == tid) := by
  intro l
  induction l with
  | nil => rfl
  | cons x xs ih =>
    by_cases hx : getId x = tid'
    · have e0 : (if getId x = tid' then f x else x) = f x := if_pos hx
      have e1 : (getId (f x) == tid) = false :=
        beq_eq_false_iff_ne.mpr (by rw [hid, hx]; exact h)
      have e2 : (getId x == tid) = false :=
        beq_eq_false_iff_ne.mpr (by rw [hx]; exact h)
      simp only [List.map_cons, List.find?_cons, e0, e1, e2]
      exact ih
    · have e0 : (if getId x = tid' then f x else x) = x := if_neg hx
      by_cases hpx : getId x = tid
      · have e3 : (getId x == tid) = true := by simp [hpx]
        simp only [List.map_cons, List.find?_cons, e0, e3]
      · have e3 : (getId x == tid) = false := by simp [hpx]
        simp only [List.map_cons, List.find?_cons, e0, e3]
        exact ih

theorem find?_update_eq (getId : α → String) (f : α → α)
    (hid : ∀ x, getId (f x) = getId x) (tid : String) :
    ∀ (l : List α) (u : α),
      l.find? (fun x => getId x == tid) = some u →
      (l.map (fun x => if getId x = tid then f x else x)).find?
        (fun x => getId x == tid) = some (f u) := by
  intro l
  induction l with
  | nil => intro u hu; simp at hu
  | cons x xs ih =>
    intro u hu
    rw [List.find?_cons] at hu
    by_cases hpx : getId x = tid
    · have e3 : (getId x == tid) = true := by simp [hpx]
      simp only [e3] at hu
      injection hu with hu
      subst hu
      have e0 : (if getId x = tid then f x else x) = f x := if_pos hpx
      have e1 : (getId (f x) == tid) = true := by simp [hid, hpx]
      simp only [List.map_cons, List.find?_cons, e0, e1]
    · have e3 : (getId x == tid) = false := by simp [hpx]
      simp only [e3] at hu
      have e0 : (if getId x = tid then f x else x) = x := if_neg hpx
      simp only [List.map_cons, List.find?_cons, e0, e3]
      exact ih u hu

theorem find?_eq_self_of_nodup (getId : α → String) :
    ∀ l : List α, (l.map getId).Nodup → ∀ x ∈ l,
      l.find? (fun u => getId u == getId x) = some x := by
  intro l
  induction l with
  | nil => intro _ x hx; simp at hx
  | cons y ys ih =>
    intro hnd x hx
    simp only [List.map_cons, List.nodup_cons] at hnd
    rcases List.mem_cons.mp hx with hx | hx
    · subst hx
      rw [List.find?_cons]
      simp
    · have hne : (getId y == getId x) = false := by
        simp only [beq_eq_false_iff_ne, ne_eq]
        intro he
        exact hnd.1 (he ▸ List.mem_map_of_mem getId hx)
      rw [List.find?_cons]
      simp only [hne]
      exact ih hnd.2 x hx

theorem ids_update (getId : α → String) (f : α → α)
    (hid : ∀ x, getId (f x) = getId x) (tid : String) :
    ∀ l : List α,
      (l.map (fun x => if getId x = tid then f x else x)).map getId = l.map getId := by
  intro l
  induction l with
  | nil => rfl
  | cons x xs ih =>
    simp only [List.map_cons, ih]
    by_cases hx : getId x = tid
    · rw [if_pos hx, hid]
    · rw [if_neg hx]

theorem inj_of_nodup_ids (getId : α → String) (l : List α)
    (hnd : (l.map getId).Nodup) :
    ∀ x ∈ l, ∀ y ∈ l, getId x = getId y → x = y := by
  intro x hx y hy hxy
  exact List.inj_on_of_nodup_map hnd hx hy hxy

end Helpers

theorem perm_insertBySeq (e : SyncEvent) :
    ∀ l, List.Perm (insertBySeq e l) (e :: l) := by
  intro l
  induction l with
  | nil => exact List.Perm.refl _
  | cons x xs ih =>
    by_cases h : e.sequence ≤ x.sequence
    · simp [insertBySeq, h]
    · simp only [insertBySeq, if_neg h]
      exact (ih.cons x).trans (List.Perm.swap e x xs)

theorem perm_sortBySeq : ∀ l, List.Perm (sortBySeq l) l := by
  intro l
  induction l with
  | nil => exact List.Perm.refl _
  | cons x xs ih =>
    exact (perm_insertBySeq x (sortBySeq xs)).trans (ih.cons x)

theorem mem_sortBySeq {x : SyncEvent} {l : List SyncEvent} :
    x ∈ sortBySeq l ↔ x ∈ l :=
  (perm_sortBySeq l).mem_iff

theorem sorted_insertBySeq (e : SyncEvent) :
    ∀ l, List.Sorted (fun a b : SyncEvent => a.sequence ≤ b.sequence) l →
      List.Sorted (fun a b : SyncEvent => a.sequence ≤ b.sequence) (insertBySeq e l) := by
  intro l
  induction l with
  | nil => intro _; simp [insertBySeq]
  | cons x xs ih =>
    intro hs
    rw [List.sorted_cons] at hs
    by_cases h : e.sequence ≤ x.sequence
    · simp only [insertBySeq, if_pos h]
      rw [List.sorted_cons]
      refine ⟨?_, ?_⟩
      · intro b hb
        rcases List.mem_cons.mp hb with hb | hb
        · subst hb; exact h
        · exact h.trans (hs.1 b hb)
      · rw [List.sorted_cons]; exact hs
    · simp only [insertBySeq, if_neg h]
      rw [List.sorted_cons]
      refine ⟨?_, ih hs.2⟩
      intro b hb
      rcases List.mem_cons.mp ((perm_insertBySeq e xs).mem_iff.mp hb) with hb | hb
      · subst hb; exact le_of_not_le h
      · exact hs.1 b hb

theorem sorted_sortBySeq :
    ∀ l, List.Sorted (fun a b : SyncEvent => a.sequence ≤ b.sequence) (sortBySeq l) := by
  intro l
  induction l with
  | nil => simp [sortBySeq]
  | cons x xs ih => exact sorted_insertBySeq x _ ih

theorem le_foldl_max : ∀ (l : List ℚ) (a : ℚ), a ≤ l.foldl max a := by
  intro l
  induction l with
  | nil => intro a; exact le_refl a
  | cons x xs ih =>
    intro a
    exact le_trans (le_max_left a x) (ih (max a x))

theorem mem_le_foldl_max : ∀ (l : List ℚ) (a x : ℚ), x ∈ l → x ≤ l.foldl max a := by
  intro l
  induction l with
  | nil => intro a x hx; simp at hx
  | cons y ys ih =>
    intro a x hx
    rcases List.mem_cons.mp hx with hx | hx
    · subst hx
      exact le_trans (le_max_right a x) (le_foldl_max ys (max a x))
    · exact ih (max a y) x hx

theorem foldl_max_cases : ∀ (l : List ℚ) (a : ℚ), l.foldl max a = a ∨ l.foldl max a ∈ l := by
  intro l
  induction l with
  | nil => intro a; exact Or.inl rfl
  | cons x xs ih =>
    intro a
    rcases ih (max a x) with h | h
    · rcases max_choice a x with hm | hm
      · exact Or.inl (by rw [List.foldl_cons, h, hm])
      · exact Or.inr (by rw [List.foldl_cons, h, hm]; exact List.mem_cons_self x xs)
    · exact Or.inr (List.mem_cons_of_mem x h)

theorem listMax_nonneg (l : List ℚ) (h : ∀ x ∈ l, 0 ≤ x) : 0 ≤ listMax l := by
  cases l with
  | nil => exact le_refl 0
  | cons x xs =>
    exact le_trans (h x (List.mem_cons_self x xs)) (le_foldl_max xs x)

theorem listMax_mem_le (l : List ℚ) (x : ℚ) (hx : x ∈ l) : x ≤ listMax l := by
  cases l with
  | nil => simp at hx
  | cons y ys =>
    rcases List.mem_cons.mp hx with h | h
    · subst h; exact le_foldl_max ys x
    · exact mem_le_foldl_max ys y x h

theorem critFold_fst_le : ∀ (l : List (String × ℚ)) (p : ℚ × String),
    p.1 ≤ (l.foldl critStep p).1 := by
  intro l
  induction l with
  | nil => intro p; exact le_refl _
  | cons e es ih =>
    intro p
    refine le_trans ?_ (ih (critStep p e))
    by_cases h : e.2 > p.1
    · simp only [critStep, if_pos h]
      exact le_of_lt h
    · simp only [critStep, if_neg h]
      exact le_refl _

theorem critFold_mem_le : ∀ (l : List (String × ℚ)) (p : ℚ × String) (e : String × ℚ),
    e ∈ l → e.2 ≤ (l.foldl critStep p).1 := by
  intro l
  induction l with
  | nil => intro p e he; simp at he
  | cons x xs ih =>
    intro p e he
    rcases List.mem_cons.mp he with he | he
    · subst he
      refine le_trans ?_ (critFold_fst_le xs (critStep p e))
      by_cases h : e.2 > p.1
      · simp only [critStep, if_pos h]
        exact le_refl _
      · simp only [critStep, if_neg h]
        exact le_of_not_lt h
    · exact ih (critStep p x) e he

theorem critFold_cases : ∀ (l : List (String × ℚ)) (p : ℚ × String),
    l.foldl critStep p = p ∨
    ∃ l1 e l2, l = l1 ++ e :: l2 ∧ (l.foldl critStep p).1 = e.2 ∧
      (l.foldl critStep p).2 = e.1 ∧ p.1 < e.2 ∧ ∀ x ∈ l1, x.2 < e.2 := by
  intro l
  induction l with
  | nil => intro p; exact Or.inl rfl
  | cons x xs ih =>
    intro p
    by_cases h : x.2 > p.1
    · have hstep : critStep p x = (x.2, x.1) := by simp [critStep, h]
      rcases ih (critStep p x) with h2 | h2
    -- the head was the last update
      · refine Or.inr ⟨[], x, xs, rfl, ?_, ?_, h, by intro y hy; simp at hy⟩
        · rw [List.foldl_cons, h2, hstep]
        · rw [List.foldl_cons, h2, hstep]
      · rcases h2 with ⟨l1, e, l2, hsplit, hfst, hsnd, hlt, hall⟩
        refine Or.inr ⟨x :: l1, e, l2, by simp [hsplit], ?_, ?_, ?_, ?_⟩
        · rw [List.foldl_cons]; exact hfst
        · rw [List.foldl_cons]; exact hsnd
        · exact lt_trans h (by rw [hstep] at hlt; exact hlt)
        · intro y hy
          rcases List.mem_cons.mp hy with hy | hy
          · subst hy; rw [hstep] at hlt; exact hlt
          · exact hall y hy
    · have hstep : critStep p x = p := by simp [critStep, h]
      rcases ih (critStep p x) with h2 | h2
      · exact Or.inl (by rw [List.foldl_cons, h2, hstep])
      · rcases h2 with ⟨l1, e, l2, hsplit, hfst, hsnd, hlt, hall⟩
        refine Or.inr ⟨x :: l1, e, l2, by simp [hsplit], ?_, ?_, ?_, ?_⟩
        · rw [List.foldl_cons]; exact hfst
        · rw [List.foldl_cons]; exact hsnd
        · rw [hstep] at hlt; exact hlt
        · intro y hy
          rcases List.mem_cons.mp hy with hy | hy
          · subst hy
            rw [hstep] at hlt
            exact lt_of_le_of_lt (le_of_not_lt h) hlt
          · exact hall y hy

theorem markFlag_count_le_one (k : String) :
    ∀ l : List (String × Bool), (∀ f ∈ l, f.2 = false) →
      ((markFlag l k).filter (fun f => f.2)).length ≤ 1 := by
  intro l
  induction l with
  | nil => intro _; simp [markFlag]
  | cons x xs ih =>
    intro hall
    by_cases hx : x.1 = k
    · have : markFlag (x :: xs) k = (x.1, true) :: xs := by
        cases x with
        | mk a b => simp only [markFlag, if_pos hx]
      rw [this]
      have hxs : xs.filter (fun f => f.2) = [] := by
        rw [List.filter_eq_nil]
        intro f hf
        simp [hall f (List.mem_cons_of_mem x hf)]
      simp [List.filter_cons, hxs]
    · have : markFlag (x :: xs) k = (x.1, x.2) :: markFlag xs k := by
        cases x with
        | mk a b => simp only [markFlag, if_neg hx]
      rw [this]
      have hx2 : x.2 = false := hall x (List.mem_cons_self x xs)
      simp only [List.filter_cons, hx2]
      exact ih (fun f hf => hall f (List.mem_cons_of_mem x hf))

theorem markFlag_split (k : String) (b : Bool) (l2 : List (String × Bool)) :
    ∀ l1 : List (String × Bool), k ∉ l1.map Prod.fst →
      markFlag (l1 ++ (k, b) :: l2) k = l1 ++ (k, true) :: l2 := by
  intro l1
  induction l1 with
  | nil => intro _; simp [markFlag]
  | cons x xs ih =>
    intro hk
    simp only [List.map_cons, List.mem_cons] at hk
    push_neg at hk
    have hx : x.1 ≠ k := fun he => hk.1 he.symm
    cases x with
    | mk a c =>
      simp only [List.cons_append, markFlag, if_neg (by simpa using hx)]
      exact congrArg (List.cons (a, c)) (ih hk.2)

theorem lookup_setAssoc {β : Type} :
    ∀ (m : List (String × β)) (k : String) (v : β) (k' : String),
      (setAssoc m k v).lookup k' = if k' = k then some v else m.lookup k' := by
  intro m
  induction m with
  | nil =>
    intro k v k'
    by_cases h : k' = k
    · simp [setAssoc, List.lookup, h]
    · simp [setAssoc, List.lookup, h, beq_eq_false_iff_ne.mpr h]
  | cons x xs ih =>
    intro k v k'
    cases x with
    | mk a b =>
      by_cases hak : a = k
      · simp only [setAssoc, if_pos hak]
        by_cases h : k' = k
        · simp [List.lookup, h]
        · simp only [List.lookup, beq_eq_false_iff_ne.mpr h, if_neg h]
          have : (k' == a) = false := beq_eq_false_iff_ne.mpr (by rw [hak]; exact h)
          simp [this]
      · simp only [setAssoc, if_neg hak]
        by_cases hka : k' = a
        · have h1 : ¬ k' = k := by rw [hka]; exact hak
          simp [List.lookup, hka, hak, h1]
        · simp only [List.lookup, beq_eq_false_iff_ne.mpr hka]
          exact ih k v k'

theorem mem_of_lookup {β : Type} :
    ∀ (m : List (String × β)) (k : String) (v : β),
      m.lookup k = some v → (k, v) ∈ m := by
  intro m
  induction m with
  | nil => intro k v h; simp [List.lookup] at h
  | cons x xs ih =>
    intro k v h
    cases x with
    | mk a b =>
      by_cases hka : k = a
      · subst hka
        simp only [List.lookup, beq_self_eq_true] at h
        injection h with h
        subst h
        exact List.mem_cons_self _ _
      · simp only [List.lookup, beq_eq_false_iff_ne.mpr hka] at h
        exact List.mem_cons_of_mem _ (ih k v h)

theorem lookup_append_some {β : Type} :
    ∀ (l1 l2 : List (String × β)) (k : String) (v : β),
      l1.lookup k = some v → (l1 ++ l2).lookup k = some v := by
  intro l1
  induction l1 with
  | nil => intro l2 k v h; simp [List.lookup] at h
  | cons x xs ih =>
    intro l2 k v h
    cases x with
    | mk a b =>
      by_cases hka : k = a
      · subst hka
        simp only [List.lookup, beq_self_eq_true] at h ⊢
        exact h
      · simp only [List.lookup, beq_eq_false_iff_ne.mpr hka] at h ⊢
        exact ih l2 k v h

theorem lookup_append_none {β : Type} :
    ∀ (l1 l2 : List (String × β)) (k : String),
      (l1 ++ l2).lookup k = none → l1.lookup k = none := by
  intro l1 l2 k h
  cases hl : l1.lookup k with
  | none => rfl
  | some v => rw [lookup_append_some l1 l2 k v hl] at h; exact h

theorem takeWhile_split {β : Type} (k : String) (v : β) (l2 : List (String × β)) :
    ∀ l1 : List (String × β), k ∉ l1.map Prod.fst →
      (l1 ++ (k, v) :: l2).takeWhile (fun e => e.1 ≠ k) = l1 := by
  intro l1
  induction l1 with
  | nil => intro _; simp [List.takeWhile]
  | cons x xs ih =>
    intro hk
    simp only [List.map_cons, List.mem_cons] at hk
    push_neg at hk
    have hx : (x.1 ≠ k) := fun he => hk.1 he.symm
    simp only [List.cons_append, List.takeWhile_cons, decide_eq_true_eq]
    rw [if_pos hx, ih hk.2]

theorem lookup_fold_setAssoc (P : TaskInstance → String → Prop) :
    ∀ (tasks : List TaskInstance) (m : List (String × TaskInstance)),
      (∀ k t, m.lookup k = some t → P t k) → (∀ t ∈ tasks, P t t.id) →
      ∀ k t, (tasks.foldl (fun m t => setAssoc m t.id t) m).lookup k = some t → P t k := by
  intro tasks
  induction tasks with
  | nil => intro m hm _ k t h; exact hm k t h
  | cons x xs ih =>
    intro m hm hall k t h
    refine ih (setAssoc m x.id x) ?_ (fun t ht => hall t (List.mem_cons_of_mem x ht)) k t h
    intro k' t' h'
    rw [lookup_setAssoc] at h'
    by_cases hk : k' = x.id
    · rw [if_pos hk] at h'
      injection h' with h'
      subst h'
      rw [hk]
      exact hall x (List.mem_cons_self x xs)
    · rw [if_neg hk] at h'
      exact hm k' t' h'

theorem buildTaskMap_lookup (tasks : List TaskInstance) (k : String) (t : TaskInstance)
    (h : (buildTaskMap tasks).lookup k = some t) : t ∈ tasks ∧ t.id = k := by
  refine lookup_fold_setAssoc (fun t k => t ∈ tasks ∧ t.id = k) tasks [] ?_ ?_ k t h
  · intro k' t' h'; simp [List.lookup] at h'
  · intro t' ht'; exact ⟨ht', rfl⟩

theorem kahnLoop_goodExt (tm : List (String × TaskInstance))
    (adj : List (String × List String)) (qs : List (String × StationQueue)) (now : ℤ) :
    ∀ (fuel : Nat) (inDeg : List (String × ℤ)) (queue : List String)
      (etas : List (String × ℚ)),
      ∃ ext, kahnLoop tm adj qs now fuel inDeg queue etas = etas ++ ext ∧
        GoodExt tm qs now etas ext := by
  intro fuel
  induction fuel with
  | zero => intro inDeg queue etas; exact ⟨[], by simp [kahnLoop], trivial⟩
  | succ n ih =>
    intro inDeg queue etas
    cases queue with
    | nil => exact ⟨[], by simp [kahnLoop], trivial⟩
    | cons tid rest =>
      cases htm : tm.lookup tid with
      | none =>
        rcases ih inDeg rest etas with ⟨ext, heq, hgood⟩
        exact ⟨ext, by simp only [kahnLoop, htm]; exact heq, hgood⟩
      | some t =>
        rcases ih ((((adj.lookup tid).getD []).foldl
            (fun (p : List (String × ℤ) × List String) depId =>
              let nd := ((p.1.lookup depId).getD 0) - 1
              (setAssoc p.1 depId nd, if nd = 0 then p.2 ++ [depId] else p.2))
            (inDeg, rest)).1)
          ((((adj.lookup tid).getD []).foldl
            (fun (p : List (String × ℤ) × List String) depId =>
              let nd := ((p.1.lookup depId).getD 0) - 1
              (setAssoc p.1 depId nd, if nd = 0 then p.2 ++ [depId] else p.2))
            (inDeg, rest)).2)
          (etas ++ [(tid, taskEtaValue etas qs now t)]) with ⟨ext, heq, hgood⟩
        refine ⟨(tid, taskEtaValue etas qs now t) :: ext, ?_, ?_⟩
        · simp only [kahnLoop, htm]
          rw [heq, List.append_assoc]
          rfl
        · exact ⟨⟨t, htm, rfl⟩, hgood⟩

theorem goodExt_split (tm : List (String × TaskInstance))
    (qs : List (String × StationQueue)) (now : ℤ) :
    ∀ (ext pre l1 : List (String × ℚ)) (e : String × ℚ) (l2 : List (String × ℚ)),
      GoodExt tm qs now pre ext → ext = l1 ++ e :: l2 →
      ∃ t, tm.lookup e.1 = some t ∧ e.2 = taskEtaValue (pre ++ l1) qs now t := by
  intro ext
  induction ext with
  | nil =>
    intro pre l1 e l2 _ heq
    exact absurd heq (by simp)
  | cons x rest ih =>
    intro pre l1 e l2 hgood heq
    rcases hgood with ⟨⟨t, htm, hval⟩, hrest⟩
    cases l1 with
    | nil =>
      simp only [List.nil_append, List.cons.injEq] at heq
      rcases heq with ⟨hxe, _⟩
      subst hxe
      exact ⟨t, htm, by rw [List.append_nil]; exact hval⟩
    | cons y l1' =>
      simp only [List.cons_append, List.cons.injEq] at heq
      rcases heq with ⟨hxy, hrest'⟩
      subst hxy
      rcases ih (pre ++ [x]) l1' e l2 hrest hrest' with ⟨t', htm', hval'⟩
      exact ⟨t', htm', by rw [List.append_assoc] at hval'; exact hval'⟩

theorem calcETA_empty (qs : List (String × StationQueue)) (now : ℤ) :
    calculateOrderETA [] qs now =
      { etas := [], maxMinutes := 0, criticalTaskId := "", flags := [],
        confidence := .low, totalMinutes := 0 } := rfl

theorem calcETA_etas_eq (tasks : List TaskInstance)
    (qs : List (String × StationQueue)) (now : ℤ) (h : tasks ≠ []) :
    (calculateOrderETA tasks qs now).etas =
      kahnLoop (buildTaskMap tasks) (buildAdjacency tasks) qs now tasks.length
        (buildInDegree tasks)
        (((buildInDegree tasks).filter (fun p => p.2 = 0)).map (fun p => p.1)) [] := by
  unfold calculateOrderETA
  rw [if_neg (by simpa [List.isEmpty_iff] using h)]

theorem calcETA_max_eq (tasks : List TaskInstance)
    (qs : List (String × StationQueue)) (now : ℤ) :
    (calculateOrderETA tasks qs now).maxMinutes =
      ((calculateOrderETA tasks qs now).etas.foldl critStep (0, "")).1 := by
  unfold calculateOrderETA
  by_cases h : tasks.isEmpty
  · rw [if_pos h]
    rfl
  · rw [if_neg h]

theorem calcETA_crit_eq (tasks : List TaskInstance)
    (qs : List (String × StationQueue)) (now : ℤ) :
    (calculateOrderETA tasks qs now).criticalTaskId =
      ((calculateOrderETA tasks qs now).etas.foldl critStep (0, "")).2 := by
  unfold calculateOrderETA
  by_cases h : tasks.isEmpty
  · rw [if_pos h]
    rfl
  · rw [if_neg h]

theorem calcETA_flags_eq (tasks : List TaskInstance)
    (qs : List (String × StationQueue)) (now : ℤ) :
    (calculateOrderETA tasks qs now).flags =
      (if (calculateOrderETA tasks qs now).criticalTaskId ≠ "" ∧
          (((calculateOrderETA tasks qs now).etas.map (fun e => (e.1, false))).lookup
            (calculateOrderETA tasks qs now).criticalTaskId).isSome then
        markFlag ((calculateOrderETA tasks qs now).etas.map (fun e => (e.1, false)))
          (calculateOrderETA tasks qs now).criticalTaskId
      else (calculateOrderETA tasks qs now).etas.map (fun e => (e.1, false))) := by
  unfold calculateOrderETA
  by_cases h : tasks.isEmpty
  · rw [if_pos h]
    simp [List.lookup]
  · rw [if_neg h]

theorem calcETA_confidence_eq (tasks : List TaskInstance)
    (qs : List (String × StationQueue)) (now : ℤ) :
    (calculateOrderETA tasks qs now).confidence =
      (if tasks.length < 3 then Confidence.low
       else if tasks.any (fun t =>
           match t.estimatedMinutes with
           | some x => decide (x > 0)
           | none => false) then Confidence.high
       else Confidence.medium) := by
  unfold calculateOrderETA
  by_cases h : tasks.isEmpty
  · have : tasks = [] := by simpa [List.isEmpty_iff] using h
    subst this
    simp
  · rw [if_neg h]

theorem nodup_split_keys {β : Type} (l1 : List (String × β)) (e : String × β)
    (l2 : List (String × β))
    (hnd : ((l1 ++ e :: l2).map Prod.fst).Nodup) :
    e.1 ∉ l1.map Prod.fst := by
  rw [List.map_append, List.map_cons, List.nodup_append] at hnd
  intro hmem
  exact hnd.2.2 hmem (List.mem_cons_self _ _)

theorem taskEtaValue_eq_spec (pre full : List (String × ℚ))
    (qs : List (String × StationQueue)) (now : ℤ) (t : TaskInstance)
    (hsome : t.estimatedMinutes.isSome = true)
    (hdep : ∀ d ∈ t.dependsOn, (pre.lookup d).getD 0 = (full.lookup d).getD 0) :
    taskEtaValue pre qs now t = specTaskETA full qs now t (t.estimatedMinutes.getD 0) := by
  cases hm : t.estimatedMinutes with
  | none => rw [hm] at hsome; simp at hsome
  | some m =>
    have hdec : decOr5 t.estimatedMinutes = t.estimatedMinutes.getD 0 := by
      rw [hm]; rfl
    cases ht : t.status with
    | done => simp [taskEtaValue, specTaskETA, ht]
    | cancelled => simp [taskEtaValue, specTaskETA, ht]
    | in_progress =>
      simp only [taskEtaValue, specTaskETA, ht, hdec]
      rw [hm]
    | pending =>
      simp only [taskEtaValue, specTaskETA, ht, hdec]
      have : t.dependsOn.map (fun d => (pre.lookup d).getD 0) =
          t.dependsOn.map (fun d => (full.lookup d).getD 0) :=
        List.map_congr_left hdep
      rw [this, hm]
    | queued =>
      simp only [taskEtaValue, specTaskETA, ht, hdec]
      have : t.dependsOn.map (fun d => (pre.lookup d).getD 0) =
          t.dependsOn.map (fun d => (full.lookup d).getD 0) :=
        List.map_congr_left hdep
      rw [this, hm]

theorem taskEtaValue_nonneg (pre : List (String × ℚ))
    (qs : List (String × StationQueue)) (now : ℤ) (t : TaskInstance)
    (hpre : ∀ e ∈ pre, 0 ≤ e.2)
    (hq : ∀ p ∈ qs, 0 ≤ p.2.avgTaskMinutes ∧ 0 ≤ p.2.capacity)
    (hest : 0 ≤ t.estimatedMinutes.getD 0 ∧ t.estimatedMinutes.isSome = true) :
    0 ≤ taskEtaValue pre qs now t := by
  cases hm : t.estimatedMinutes with
  | none => rw [hm] at hest; simp at hest
  | some m =>
    have hm0 : 0 ≤ m := by rw [hm] at hest; simpa using hest.1
    have hdec : decOr5 t.estimatedMinutes = m := by rw [hm]; rfl
    have hmaxdep : 0 ≤ (if t.dependsOn.isEmpty then (0 : ℚ)
        else listMax (t.dependsOn.map (fun d => (pre.lookup d).getD 0))) := by
      by_cases hde : t.dependsOn.isEmpty
      · rw [if_pos hde]
      · rw [if_neg hde]
        refine listMax_nonneg _ ?_
        intro x hx
        rcases List.mem_map.mp hx with ⟨d, _, hdx⟩
        subst hdx
        cases hl : pre.lookup d with
        | none => simp
        | some v =>
          simp only [Option.getD_some]
          exact hpre (d, v) (mem_of_lookup pre d v hl)
    have hwait : ∀ sid : String, 0 ≤ (match qs.lookup sid with
        | none => (0 : ℚ)
        | some sq => ((sq.queuedTasks : ℚ) * sq.avgTaskMinutes) / sq.capacity) := by
      intro sid
      cases hl : qs.lookup sid with
      | none => exact le_refl 0
      | some sq =>
        have hsq := hq (sid, sq) (mem_of_lookup qs sid sq hl)
        exact div_nonneg (mul_nonneg (by positivity) hsq.1) hsq.2
    cases ht : t.status with
    | done => simp [taskEtaValue, ht]
    | cancelled => simp [taskEtaValue, ht]
    | in_progress =>
      simp only [taskEtaValue, ht]
      exact le_max_left 0 _
    | pending =>
      simp only [taskEtaValue, ht, hdec]
      refine add_nonneg (add_nonneg hmaxdep ?_) hm0
      cases hsid : t.stationId with
      | none => exact le_refl 0
      | some sid => exact hwait sid
    | queued =>
      simp only [taskEtaValue, ht, hdec]
      refine add_nonneg (add_nonneg hmaxdep ?_) hm0
      cases hsid : t.stationId with
      | none => exact le_refl 0
      | some sid => exact hwait sid

theorem goodExt_all_nonneg (tm : List (String × TaskInstance))
    (qs : List (String × StationQueue)) (now : ℤ)
    (htm : ∀ k t, tm.lookup k = some t →
      0 ≤ t.estimatedMinutes.getD 0 ∧ t.estimatedMinutes.isSome = true)
    (hq : ∀ p ∈ qs, 0 ≤ p.2.avgTaskMinutes ∧ 0 ≤ p.2.capacity) :
    ∀ (ext pre : List (String × ℚ)), GoodExt tm qs now pre ext →
      (∀ e ∈ pre, 0 ≤ e.2) → ∀ e ∈ ext, 0 ≤ e.2 := by
  intro ext
  induction ext with
  | nil => intro pre _ _ e he; simp at he
  | cons x rest ih =>
    intro pre hgood hpre e he
    rcases hgood with ⟨⟨t, htmx, hval⟩, hrest⟩
    have hx : 0 ≤ x.2 := by
      rw [hval]
      exact taskEtaValue_nonneg pre qs now t hpre hq (htm _ _ htmx)
    rcases List.mem_cons.mp he with he | he
    · subst he; exact hx
    · refine ih (pre ++ [x]) hrest ?_ e he
      intro e' he'
      rcases List.mem_append.mp he' with h | h
      · exact hpre e' h
      · rw [List.mem_singleton] at h
        subst h
        exact hx

theorem depsBeforeOk_mem (tm : List (String × TaskInstance))
    (full : List (String × ℚ)) :
    ∀ rest, depsBeforeOk tm full rest = true →
      ∀ e ∈ rest, ∀ t, tm.lookup e.1 = some t →
        ∀ d ∈ t.dependsOn,
          ((full.takeWhile (fun x => x.1 ≠ e.1)).lookup d).isSome = true ∨
          full.lookup d = none := by
  intro rest
  induction rest with
  | nil => intro _ e he; exact absurd he (by simp)
  | cons x rs ih =>
    intro hok e he t htm d hd
    cases x with
    | mk k v =>
      simp only [depsBeforeOk, Bool.and_eq_true] at hok
      rcases List.mem_cons.mp he with he | he
      · subst he
        rw [htm] at hok
        have hall := hok.1
        rw [List.all_eq_true] at hall
        have := hall d hd
        rcases Bool.or_eq_true _ _ |>.mp this with h | h
        · exact Or.inl h
        · exact Or.inr (Option.isNone_iff_eq_none.mp h)
      · exact ih hok.2 e he t htm d hd

/-- C3: for every task instance processed by the order ETA calculation, the
per-task ETA equals the specification's formula — 0 when `done`/`cancelled`;
`max(0, estimatedDuration − elapsedSinceStart)` when `in_progress`; otherwise
the max of the dependencies' ETAs plus the station queue wait plus the
estimated duration — and the order ETA (`maxMinutes`) is the maximum
per-task ETA.  Hypotheses: every instance carries a non-null, non-negative
estimate, the station queue summaries are non-negative, and the produced
map is well-formed (distinct keys; dependencies listed before their
dependents or absent altogether), which holds for every acyclic
instance graph. -/
theorem calculateOrderETA_per_task_and_max
    (tasks : List TaskInstance) (queues : List (String × StationQueue)) (now : ℤ)
    (r : OrderETAResult) (hr : r = calculateOrderETA tasks queues now)
    (hest : ∀ t ∈ tasks, 0 ≤ t.estimatedMinutes.getD 0 ∧ t.estimatedMinutes.isSome = true)
    (hq : ∀ p ∈ queues, 0 ≤ p.2.avgTaskMinutes ∧ 0 ≤ p.2.capacity)
    (hnd : (r.etas.map Prod.fst).Nodup)
    (hdeps : depsBeforeOk (buildTaskMap tasks) r.etas r.etas = true) :
    (∀ e ∈ r.etas, ∃ t ∈ tasks, t.id = e.1 ∧
       e.2 = specTaskETA r.etas queues now t (t.estimatedMinutes.getD 0)) ∧
    (∀ e ∈ r.etas, e.2 ≤ r.maxMinutes) ∧
    (r.etas ≠ [] → ∃ e ∈ r.etas, e.2 = r.maxMinutes) ∧
    (r.etas = [] → r.maxMinutes = 0) := by
  subst hr
  by_cases hemp : tasks = []
  · subst hemp
    rw [calcETA_empty] at hnd hdeps ⊢
    refine ⟨?_, ?_, ?_, ?_⟩ <;> simp
  · have hetas := calcETA_etas_eq tasks queues now hemp
    rcases kahnLoop_goodExt (buildTaskMap tasks) (buildAdjacency tasks) queues now
      tasks.length (buildInDegree tasks)
      (((buildInDegree tasks).filter (fun p => p.2 = 0)).map (fun p => p.1)) []
      with ⟨ext, hk, hgood⟩
    have hext : (calculateOrderETA tasks queues now).etas = ext := by
      rw [hetas, hk]
      rfl
    have hnn : ∀ e ∈ (calculateOrderETA tasks queues now).etas, 0 ≤ e.2 := by
      rw [hext]
      refine goodExt_all_nonneg (buildTaskMap tasks) queues now ?_ hq ext [] hgood
        (by intro e he; simp at he)
      intro k t hkt
      rcases buildTaskMap_lookup tasks k t hkt with ⟨hmem, _⟩
      exact hest t hmem
    have hmain : ∀ e ∈ (calculateOrderETA tasks queues now).etas,
        ∃ t ∈ tasks, t.id = e.1 ∧
          e.2 = specTaskETA (calculateOrderETA tasks queues now).etas queues now t
            (t.estimatedMinutes.getD 0) := by
      intro e he
      rcases List.append_of_mem (hext ▸ he) with ⟨l1, l2, hsplit⟩
      rcases goodExt_split _ queues now ext [] l1 e l2 hgood hsplit with ⟨t, htm, hval⟩
      rcases buildTaskMap_lookup tasks e.1 t htm with ⟨htmem, htid⟩
      have hescape : (calculateOrderETA tasks queues now).etas = l1 ++ e :: l2 := by
        rw [hext, hsplit]
      have hl1keys : e.1 ∉ l1.map Prod.fst :=
        nodup_split_keys l1 e l2 (by rw [← hescape]; exact hnd)
      have htake : ((calculateOrderETA tasks queues now).etas.takeWhile
          (fun x => x.1 ≠ e.1)) = l1 := by
        rw [hescape]
        exact takeWhile_split e.1 e.2 l2 l1 hl1keys
      have hdep : ∀ d ∈ t.dependsOn,
          (l1.lookup d).getD 0 =
            ((calculateOrderETA tasks queues now).etas.lookup d).getD 0 := by
        intro d hd
        rcases depsBeforeOk_mem (buildTaskMap tasks)
            (calculateOrderETA tasks queues now).etas
            (calculateOrderETA tasks queues now).etas hdeps e he t htm d hd with hA | hB
        · rw [htake] at hA
          rcases Option.isSome_iff_exists.mp hA with ⟨w, hw⟩
          rw [hw]
          have : ((calculateOrderETA tasks queues now).etas.lookup d) = some w := by
            rw [hescape]
            exact lookup_append_some l1 (e :: l2) d w hw
          rw [this]
        · have hl1 : l1.lookup d = none := by
            refine lookup_append_none l1 (e :: l2) d ?_
            rw [← hescape]
            exact hB
          rw [hl1, hB]
      refine ⟨t, htmem, htid, ?_⟩
      rw [hval]
      rw [List.nil_append]
      exact taskEtaValue_eq_spec l1 _ queues now t (hest t htmem).2 hdep
    refine ⟨hmain, ?_, ?_, ?_⟩
    · intro e he
      rw [calcETA_max_eq]
      exact critFold_mem_le _ _ e he
    · intro hne
      rw [calcETA_max_eq]
      rcases critFold_cases ((calculateOrderETA tasks queues now).etas) (0, "") with hc | hc
      · cases hE : (calculateOrderETA tasks queues now).etas with
        | nil => exact absurd hE hne
        | cons x xs =>
          rw [hE] at hc hnn
          refine ⟨x, List.mem_cons_self x xs, ?_⟩
          have h1 : x.2 ≤ ((x :: xs).foldl critStep (0, "")).1 :=
            critFold_mem_le _ _ x (List.mem_cons_self x xs)
          rw [hc] at h1
          have h2 : 0 ≤ x.2 := hnn x (List.mem_cons_self x xs)
          rw [hc]
          exact le_antisymm h1 h2
      · rcases hc with ⟨l1, e, l2, hsplit, hfst, _, _, _⟩
        exact ⟨e, by rw [hsplit]; exact List.mem_append_right _ (List.mem_cons_self _ _),
          hfst.symm⟩
    · intro hE
      rw [calcETA_max_eq, hE]
      rfl

/-- Witness: the hypotheses of `calculateOrderETA_per_task_and_max` hold at
the concrete three-task order and yield an entry attaining the order
maximum. -/
theorem calculateOrderETA_per_task_and_max_witness :
    ∃ e ∈ (calculateOrderETA c3Tasks c3Queues c3Now).etas,
      e.2 = (calculateOrderETA c3Tasks c3Queues c3Now).maxMinutes :=
  (calculateOrderETA_per_task_and_max c3Tasks c3Queues c3Now _ rfl
    (by decide) (by decide) (by decide) (by decide)).2.2.1 (by decide)

theorem lookup_append_eq {β : Type} :
    ∀ (l1 l2 : List (String × β)) (k : String),
      l1.lookup k = none → (l1 ++ l2).lookup k = l2.lookup k := by
  intro l1
  induction l1 with
  | nil => intro l2 k _; rfl
  | cons x xs ih =>
    intro l2 k h
    cases x with
    | mk a b =>
      by_cases hka : k = a
      · subst hka
        simp only [List.lookup, beq_self_eq_true] at h
        exact absurd h (by simp)
      · simp only [List.cons_append, List.lookup, beq_eq_false_iff_ne.mpr hka] at h ⊢
        exact ih l2 k h

/-- C10: `calculateOrderETA` flags at most one instance as on the critical
path; when the maximum remaining time is 0 (for example, every task already
done) no instance is flagged; and when it is positive, exactly the first
entry of the ETA map (map iteration order = traversal order) attaining the
maximum is flagged.  Hypotheses: task ids are non-empty (required by the
`if (criticalTaskId && ...)` truthiness guard) and the map keys are
distinct. -/
theorem calculateOrderETA_critical_flag
    (tasks : List TaskInstance) (queues : List (String × StationQueue)) (now : ℤ)
    (r : OrderETAResult) (hr : r = calculateOrderETA tasks queues now)
    (hids : ∀ t ∈ tasks, t.id ≠ "")
    (hnd : (r.etas.map Prod.fst).Nodup) :
    ((r.flags.filter (fun f => f.2)).length ≤ 1) ∧
    (r.maxMinutes = 0 → ∀ f ∈ r.flags, f.2 = false) ∧
    (0 < r.maxMinutes → ∃ l1 e l2, r.etas = l1 ++ e :: l2 ∧ e.2 = r.maxMinutes ∧
      (∀ x ∈ l1, x.2 < r.maxMinutes) ∧
      r.flags = l1.map (fun x => (x.1, false)) ++
        (e.1, true) :: l2.map (fun x => (x.1, false))) := by
  subst hr
  have hff : ∀ f ∈ ((calculateOrderETA tasks queues now).etas.map
      (fun e => (e.1, false))), f.2 = false := by
    intro f hf
    rcases List.mem_map.mp hf with ⟨e, _, he⟩
    rw [← he]
  refine ⟨?_, ?_, ?_⟩
  · rw [calcETA_flags_eq]
    by_cases hcond : (calculateOrderETA tasks queues now).criticalTaskId ≠ "" ∧
        (((calculateOrderETA tasks queues now).etas.map (fun e => (e.1, false))).lookup
          (calculateOrderETA tasks queues now).criticalTaskId).isSome
    · rw [if_pos hcond]
      exact markFlag_count_le_one _ _ hff
    · rw [if_neg hcond]
      have : (((calculateOrderETA tasks queues now).etas.map
          (fun e => (e.1, false))).filter (fun f => f.2)).length = 0 := by
        rw [List.length_eq_zero, List.filter_eq_nil]
        intro f hf
        simp [hff f hf]
      rw [this]
      exact Nat.zero_le 1
  · intro hmax f hf
    rcases critFold_cases ((calculateOrderETA tasks queues now).etas) (0, "") with hc | hc
    · have hcrit : (calculateOrderETA tasks queues now).criticalTaskId = "" := by
        rw [calcETA_crit_eq, hc]
      rw [calcETA_flags_eq, if_neg (by rw [hcrit]; simp)] at hf
      exact hff f hf
    · rcases hc with ⟨l1, e, l2, _, hfst, _, hlt, _⟩
      rw [calcETA_max_eq] at hmax
      rw [hmax] at hfst
      rw [← hfst] at hlt
      exact absurd hlt (lt_irrefl 0)
  · intro hmax
    rcases critFold_cases ((calculateOrderETA tasks queues now).etas) (0, "") with hc | hc
    · rw [calcETA_max_eq, hc] at hmax
      exact absurd hmax (lt_irrefl 0)
    · rcases hc with ⟨l1, e, l2, hsplit, hfst, hsnd, _, hall⟩
      have hmaxeq : (calculateOrderETA tasks queues now).maxMinutes = e.2 := by
        rw [calcETA_max_eq]; exact hfst
      have hcriteq : (calculateOrderETA tasks queues now).criticalTaskId = e.1 := by
        rw [calcETA_crit_eq]; exact hsnd
      -- the flagged entry corresponds to a task with a non-empty id
      have hne : e.1 ≠ "" := by
        by_cases hemp : tasks = []
        · subst hemp
          rw [calcETA_empty] at hsplit
          exact absurd hsplit (by simp)
        · rcases kahnLoop_goodExt (buildTaskMap tasks) (buildAdjacency tasks) queues now
            tasks.length (buildInDegree tasks)
            (((buildInDegree tasks).filter (fun p => p.2 = 0)).map (fun p => p.1)) []
            with ⟨ext, hk, hgood⟩
          have hext : (calculateOrderETA tasks queues now).etas = ext := by
            rw [calcETA_etas_eq tasks queues now hemp, hk]
            rfl
          rcases goodExt_split _ queues now ext [] l1 e l2 hgood (by rw [← hext]; exact hsplit)
            with ⟨t, htm, _⟩
          rcases buildTaskMap_lookup tasks e.1 t htm with ⟨htmem, htid⟩
          rw [← htid]
          exact hids t htmem
      have hl1keys : e.1 ∉ l1.map Prod.fst :=
        nodup_split_keys l1 e l2 (by rw [← hsplit]; exact hnd)
      have hflags0 : (calculateOrderETA tasks queues now).etas.map (fun x => (x.1, false)) =
          l1.map (fun x => (x.1, false)) ++ ((e.1, false) : String × Bool) ::
            l2.map (fun x => (x.1, false)) := by
        rw [hsplit, List.map_append, List.map_cons]
      have hlookup : (((calculateOrderETA tasks queues now).etas.map
          (fun x => (x.1, false))).lookup e.1).isSome = true := by
        rw [hflags0]
        cases hl : (l1.map (fun x => ((x.1 : String), false))).lookup e.1 with
        | some v =>
          rw [lookup_append_some _ _ _ _ hl]
          rfl
        | none =>
          rw [lookup_append_eq _ _ _ hl]
          simp [List.lookup]
      refine ⟨l1, e, l2, hsplit, hmaxeq.symm ▸ rfl, ?_, ?_⟩
      · intro x hx
        rw [hmaxeq]
        exact hall x hx
      · rw [calcETA_flags_eq, hcriteq, if_pos ⟨hne, hlookup⟩]
        have hkeys : e.1 ∉ (l1.map (fun x => ((x.1 : String), false))).map Prod.fst := by
          intro hmem
          rw [List.map_map] at hmem
          exact hl1keys (by simpa using hmem)
        rw [hflags0]
        exact markFlag_split e.1 false (l2.map (fun x => (x.1, false))) _ hkeys

/-- C6 (amended): the ETA confidence is `low` exactly when the order has
fewer than three instances; with at least three instances it is `high`
exactly when at least one instance has a positive (non-null) estimate and
`medium` exactly when none has — the code tests `some` instance, not the
claim's `every` instance (see `confidence_counterexample`). -/
theorem calculateOrderETA_confidence
    (tasks : List TaskInstance) (queues : List (String × StationQueue)) (now : ℤ) :
    ((calculateOrderETA tasks queues now).confidence = .low ↔ tasks.length < 3) ∧
    ((calculateOrderETA tasks queues now).confidence = .high ↔
      3 ≤ tasks.length ∧ ∃ t ∈ tasks, 0 < t.estimatedMinutes.getD 0) ∧
    ((calculateOrderETA tasks queues now).confidence = .medium ↔
      3 ≤ tasks.length ∧ ∀ t ∈ tasks, t.estimatedMinutes.getD 0 ≤ 0) := by
  rw [calcETA_confidence_eq]
  have hpt : ∀ t : TaskInstance, ((match t.estimatedMinutes with
      | some x => decide (x > 0)
      | none => false) = true) ↔ 0 < t.estimatedMinutes.getD 0 := by
    intro t
    cases hm : t.estimatedMinutes with
    | none => simp
    | some m => simp
  have hany : (tasks.any (fun t => match t.estimatedMinutes with
      | some x => decide (x > 0)
      | none => false) = true) ↔ ∃ t ∈ tasks, 0 < t.estimatedMinutes.getD 0 := by
    rw [List.any_eq_true]
    constructor
    · rintro ⟨t, ht, hp⟩
      exact ⟨t, ht, (hpt t).mp hp⟩
    · rintro ⟨t, ht, hp⟩
      exact ⟨t, ht, (hpt t).mpr hp⟩
  by_cases h3 : tasks.length < 3
  · rw [if_pos h3]
    have h3' : ¬ 3 ≤ tasks.length := by omega
    exact ⟨by simp [h3], by simp [h3'], by simp [h3']⟩
  · rw [if_neg h3]
    have h3' : 3 ≤ tasks.length := by omega
    by_cases hA : (tasks.any (fun t => match t.estimatedMinutes with
        | some x => decide (x > 0)
        | none => false) = true)
    · rw [if_pos hA]
      have hex := hany.mp hA
      refine ⟨by simp [h3], ⟨fun _ => ⟨h3', hex⟩, fun _ => rfl⟩, ?_⟩
      constructor
      · intro hcontra; exact absurd hcontra (by simp)
      · rintro ⟨_, hall⟩
        rcases hex with ⟨t, ht, hp⟩
        exact absurd (hall t ht) (not_le.mpr hp)
    · rw [if_neg hA]
      have hnex : ¬ ∃ t ∈ tasks, 0 < t.estimatedMinutes.getD 0 :=
        fun he => hA (hany.mpr he)
      push_neg at hnex
      refine ⟨by simp [h3], ?_, ⟨fun _ => ⟨h3', hnex⟩, fun _ => rfl⟩⟩
      constructor
      · intro hcontra; exact absurd hcontra (by simp)
      · rintro ⟨_, t, ht, hp⟩
        exact absurd hp (not_lt.mpr (hnex t ht))

/-- C6 counterexample: an order of three instances of which exactly one has
a positive estimate is reported `high`, although not every instance has a
positive (sample-backed) duration — the claim's "every instance" fails on
the code, which tests "some instance". -/
theorem confidence_counterexample :
    (calculateOrderETA c6Tasks [] 0).confidence = .high ∧
    ¬ (∀ t ∈ c6Tasks, 0 < t.estimatedMinutes.getD 0) := by decide

/-- C1: completing the already-`done` task `t1` a second time is rejected
with `Task non completabile (stato: done)` instead of succeeding as a
no-op: the first call succeeds (recording one duration sample and marking
the task `done`), the second call throws.  This evaluates `completeTask` at
the failing input of the claim. -/
theorem completeTask_second_call_throws :
    (completeTask "t1" "u1" "tn" 60000 exState0).toOption.isSome = true ∧
    exState1.durations.length = 1 ∧
    (findTask exState1.tasks "t1" "tn").map TaskInstance.status = some .done ∧
    completeTask "t1" "u1" "tn" 61000 exState1 =
      .error "Task non completabile (stato: done)" := by
  refine ⟨rfl, rfl, rfl, rfl⟩

/-- C4: a pulled authoritative order overwrites a local order whose
`_syncStatus` is `modified` (the skip guard tests only `'local'`), while a
pulled task correctly leaves a `modified` local task untouched and an order
in state `'local'` is protected.  This evaluates the pull functions at the
claim's failing input. -/
theorem pull_clobbers_modified_order :
    pullActiveOrders [c4ServerOrder] [c4LocalOrder] =
      [{ id := "o1", tenantId := "tn", status := "preparing",
         actualReadyAt := none, syncStatus := .synced }] ∧
    (pullActiveTasks [c4ServerTask] ([c4LocalTask], [])).1 = [c4LocalTask] ∧
    pullActiveOrders [c4ServerOrder] [{ c4LocalOrder with syncStatus := .loc }] =
      [{ c4LocalOrder with syncStatus := .loc }] := by
  refine ⟨rfl, rfl, rfl⟩

/-- C5 counterexample: with events 1, 2, 3 pending and the server failing
event 1 in the first round, the cross-round application order is 2, 3, 1 —
not non-decreasing in sequence, refuting the claim that events are applied
in sequence order across retry rounds. -/
theorem push_reorders_across_rounds :
    c5Log = [2, 3, 1] ∧
    ¬ List.Sorted (fun a b : ℕ => a ≤ b) c5Log := by
  constructor
  · rfl
  · intro h
    rw [show c5Log = [2, 3, 1] from rfl] at h
    rcases List.sorted_cons.mp h with ⟨h2, _⟩
    exact absurd (h2 1 (by simp)) (by omega)

/-- C8 counterexample: for a one-task workflow of three estimated minutes
and no stations, `suggestOrderTime` answers 5 minutes (ceiling plus the
2-minute packaging buffer) while `calculateOrderETA` on the hypothetical
instances of the same definition computes a 3-minute order ETA — the two
computations do not agree, refuting the claim that `suggestOrderTime`
returns the same result as the traversal. -/
theorem suggest_differs_from_eta :
    suggestOrderTime [] [c8Item] = 5 ∧
    (calculateOrderETA (hypotheticalInstances "tn" "o1" [] c8Def) [] 0).maxMinutes = 3 ∧
    (5 : ℤ) ≠ 3 := by
  refine ⟨?_, ?_, by decide⟩
  · simp [suggestOrderTime, c8Item, c8Def, nameMatches, charsContain, charsStart]
  · simp [calculateOrderETA, hypotheticalInstances, c8Def, buildTaskMap, buildInDegree,
          buildAdjacency, ensureKey, pushAssoc, setAssoc, kahnLoop, taskEtaValue, listMax,
          critStep, decOr5, List.lookup]

theorem trel_id {a b : TaskInstance} (h : TRel a b) : b.id = a.id := by
  rcases h with h | ⟨_, h⟩ <;> rw [h]

theorem trel_status {a b : TaskInstance} (h : TRel a b) :
    b.status = a.status ∨ (a.status = .pending ∧ b.status = .queued) := by
  rcases h with h | ⟨h1, h2⟩
  · exact Or.inl (by rw [h])
  · exact Or.inr ⟨h1, by rw [h2]⟩

theorem actRel_refl (l : List TaskInstance) : ActRel l l :=
  List.forall₂_same.mpr (fun _ _ => Or.inl rfl)

theorem actRel_setStatus :
    ∀ (db cur : List TaskInstance), ActRel db cur →
      ∀ tid, (∀ u ∈ db, u.id = tid → u.status = .pending) →
      ActRel db (setStatus cur tid .queued) := by
  intro db cur h
  induction h with
  | nil => intro _ _; exact List.Forall₂.nil
  | @cons a b l1 l2 hab hrest ih =>
    intro tid hpend
    simp only [setStatus, List.map_cons]
    refine List.Forall₂.cons ?_ (ih tid (fun u hu => hpend u (List.mem_cons_of_mem a hu)))
    by_cases hb : b.id = tid
    · rw [if_pos hb]
      have hap : a.status = .pending :=
        hpend a (List.mem_cons_self a l1) (by rw [← trel_id hab]; exact hb)
      rcases hab with h | ⟨hpa, h⟩
      · exact Or.inr ⟨hap, by rw [h]⟩
      · exact Or.inr ⟨hpa, by rw [h]⟩
    · rw [if_neg hb]
      exact hab

theorem actRel_depsDoneCount :
    ∀ (db cur : List TaskInstance), ActRel db cur → ∀ deps,
      depsDoneCount cur deps = depsDoneCount db deps := by
  intro db cur h
  induction h with
  | nil => intro _; rfl
  | @cons a b l1 l2 hab hrest ih =>
    intro deps
    have hpb : (deps.contains b.id && b.status == TaskStatus.done) =
        (deps.contains a.id && a.status == TaskStatus.done) := by
      rw [trel_id hab]
      rcases trel_status hab with h | ⟨h1, h2⟩
      · rw [h]
      · rw [h1, h2]
        rfl
    unfold depsDoneCount
    rw [List.filter_cons, List.filter_cons, hpb]
    by_cases hp : (deps.contains a.id && a.status == TaskStatus.done) = true
    · rw [if_pos hp, if_pos hp, List.length_cons, List.length_cons]
      exact congrArg (· + 1) (ih deps)
    · rw [if_neg hp, if_neg hp]
      exact ih deps

theorem actRel_fold (db : List TaskInstance)
    (hnd : (db.map (fun t => t.id)).Nodup) :
    ∀ (Q : List TaskInstance) (acc : List TaskInstance × Nat),
      (∀ x ∈ Q, x ∈ db ∧ x.status = .pending) →
      ActRel db acc.1 → ActRel db (Q.foldl actStep acc).1 := by
  intro Q
  induction Q with
  | nil => intro acc _ h; exact h
  | cons x xs ih =>
    intro acc hQ hrel
    rw [List.foldl_cons]
    refine ih (actStep acc x) (fun y hy => hQ y (List.mem_cons_of_mem x hy)) ?_
    have hpend : ∀ u ∈ db, u.id = x.id → u.status = .pending := by
      intro u hu hid
      have hx := hQ x (List.mem_cons_self x xs)
      have := inj_of_nodup_ids (fun t => t.id) db hnd u hu x hx.1 hid
      rw [this]
      exact hx.2
    unfold actStep
    by_cases h1 : x.dependsOn.isEmpty
    · rw [if_pos h1]
      exact actRel_setStatus db acc.1 hrel x.id hpend
    · by_cases h2 : depsDoneCount acc.1 x.dependsOn = x.dependsOn.length
      · rw [if_neg h1, if_pos h2]
        exact actRel_setStatus db acc.1 hrel x.id hpend
      · rw [if_neg h1, if_neg h2]
        exact hrel

theorem actFold_find_untouched :
    ∀ (Q : List TaskInstance) (acc : List TaskInstance × Nat) (tid : String),
      (∀ x ∈ Q, x.id ≠ tid) →
      (Q.foldl actStep acc).1.find? (fun u => u.id == tid) =
        acc.1.find? (fun u => u.id == tid) := by
  intro Q
  induction Q with
  | nil => intro acc tid _; rfl
  | cons x xs ih =>
    intro acc tid hne
    rw [List.foldl_cons,
        ih (actStep acc x) tid (fun y hy => hne y (List.mem_cons_of_mem x hy))]
    have hset : (setStatus acc.1 x.id .queued).find? (fun u => u.id == tid) =
        acc.1.find? (fun u => u.id == tid) :=
      find?_update_ne (fun t => t.id) (fun t => { t with status := .queued })
        (fun _ => rfl) tid x.id (hne x (List.mem_cons_self x xs)) acc.1
    unfold actStep
    by_cases h1 : x.dependsOn.isEmpty
    · rw [if_pos h1]
      exact hset
    · by_cases h2 : depsDoneCount acc.1 x.dependsOn = x.dependsOn.length
      · rw [if_neg h1, if_pos h2]
        exact hset
      · rw [if_neg h1, if_neg h2]

theorem nodup_split_ids {α : Type} (getId : α → String) (l1 : List α) (x : α)
    (l2 : List α) (hnd : ((l1 ++ x :: l2).map getId).Nodup) :
    getId x ∉ l1.map getId ∧ getId x ∉ l2.map getId := by
  rw [List.map_append, List.map_cons, List.nodup_append] at hnd
  constructor
  · intro hmem
    exact hnd.2.2 hmem (List.mem_cons_self _ _)
  · intro hmem
    exact (List.nodup_cons.mp hnd.2.1).1 hmem

/-- C2 (amended): `activateReadyTasks` promotes a `pending` task of the
order to `queued` iff its dependency list is empty or the number of `done`
rows among its dependency ids equals the number of its dependency entries —
a `cancelled` dependency does not satisfy activation (the original claim is
refuted by `activation_cancelled_counterexample`) — and an unpromoted task
is left entirely unchanged. -/
theorem activateReadyTasks_iff_deps_done
    (tenantId orderId : String) (db : List TaskInstance) (t : TaskInstance)
    (hnd : (db.map (fun u => u.id)).Nodup)
    (ht : t ∈ db) (htn : t.tenantId = tenantId) (hor : t.orderId = orderId)
    (hst : t.status = .pending) :
    ((activateReadyTasks tenantId orderId db).1.find? (fun u => u.id == t.id) =
        some { t with status := .queued } ↔
      (t.dependsOn = [] ∨ depsDoneCount db t.dependsOn = t.dependsOn.length)) ∧
    (¬ (t.dependsOn = [] ∨ depsDoneCount db t.dependsOn = t.dependsOn.length) →
      (activateReadyTasks tenantId orderId db).1.find? (fun u => u.id == t.id) =
        some t) := by
  have hP : activateReadyTasks tenantId orderId db =
      (db.filter (fun u => u.tenantId == tenantId && u.orderId == orderId &&
        u.status == TaskStatus.pending)).foldl actStep (db, 0) := rfl
  set P := db.filter (fun u => u.tenantId == tenantId && u.orderId == orderId &&
    u.status == TaskStatus.pending) with hPdef
  have htP : t ∈ P := by
    rw [hPdef]
    refine List.mem_filter.mpr ⟨ht, ?_⟩
    simp [htn, hor, hst]
  have hPnd : (P.map (fun u => u.id)).Nodup :=
    List.Nodup.sublist (List.Sublist.map _ (List.filter_sublist db)) hnd
  rcases List.append_of_mem htP with ⟨P1, P2, hsplit⟩
  have hids := nodup_split_ids (fun u => u.id) P1 t P2 (by rw [← hsplit]; exact hPnd)
  have hPmem : ∀ x ∈ P, x ∈ db ∧ x.status = .pending := by
    intro x hx
    have hmf := List.mem_filter.mp (hPdef ▸ hx)
    refine ⟨hmf.1, ?_⟩
    have h3 := hmf.2
    simp only [Bool.and_eq_true, beq_iff_eq] at h3
    exact h3.2
  set acc1 := P1.foldl actStep (db, 0) with hacc1
  have hrel1 : ActRel db acc1.1 := by
    rw [hacc1]
    exact actRel_fold db hnd P1 (db, 0)
      (fun x hx => hPmem x (by rw [hsplit]; exact List.mem_append_left _ hx))
      (actRel_refl db)
  have hP1ne : ∀ x ∈ P1, x.id ≠ t.id := by
    intro x hx hxeq
    refine hids.1 ?_
    have hmm : x.id ∈ P1.map (fun u => u.id) := List.mem_map_of_mem (fun u => u.id) hx
    rw [hxeq] at hmm
    exact hmm
  have hP2ne : ∀ x ∈ P2, x.id ≠ t.id := by
    intro x hx hxeq
    refine hids.2 ?_
    have hmm : x.id ∈ P2.map (fun u => u.id) := List.mem_map_of_mem (fun u => u.id) hx
    rw [hxeq] at hmm
    exact hmm
  have hfind1 : acc1.1.find? (fun u => u.id == t.id) = some t := by
    rw [hacc1, actFold_find_untouched P1 (db, 0) t.id hP1ne]
    exact find?_eq_self_of_nodup (fun u => u.id) db hnd t ht
  have hfold : P.foldl actStep (db, 0) = P2.foldl actStep (actStep acc1 t) := by
    rw [hsplit, List.foldl_append, List.foldl_cons]
  by_cases hcond : (t.dependsOn = [] ∨ depsDoneCount db t.dependsOn = t.dependsOn.length)
  · have hstep : actStep acc1 t = (setStatus acc1.1 t.id .queued, acc1.2 + 1) := by
      unfold actStep
      rcases hcond with hc | hc
      · rw [if_pos (by simp [hc])]
      · by_cases h1 : t.dependsOn.isEmpty
        · rw [if_pos h1]
        · rw [if_neg h1,
              if_pos (by rw [actRel_depsDoneCount db acc1.1 hrel1]; exact hc)]
    have hfinal : (activateReadyTasks tenantId orderId db).1.find?
        (fun u => u.id == t.id) = some { t with status := .queued } := by
      rw [hP, hfold, hstep, actFold_find_untouched P2 _ t.id hP2ne]
      exact find?_update_eq (fun u => u.id) (fun u => { u with status := .queued })
        (fun _ => rfl) t.id acc1.1 t hfind1
    exact ⟨⟨fun _ => hcond, fun _ => hfinal⟩, fun hn => absurd hcond hn⟩
  · have h1 : ¬ t.dependsOn.isEmpty = true := by
      intro h
      exact hcond (Or.inl (by simpa [List.isEmpty_iff] using h))
    have h2 : ¬ depsDoneCount acc1.1 t.dependsOn = t.dependsOn.length := by
      intro h
      rw [actRel_depsDoneCount db acc1.1 hrel1] at h
      exact hcond (Or.inr h)
    have hstep : actStep acc1 t = acc1 := by
      unfold actStep
      rw [if_neg h1, if_neg h2]
    have hfinal : (activateReadyTasks tenantId orderId db).1.find?
        (fun u => u.id == t.id) = some t := by
      rw [hP, hfold, hstep, actFold_find_untouched P2 acc1 t.id hP2ne]
      exact hfind1
    refine ⟨⟨?_, fun hc => absurd hc hcond⟩, fun _ => hfinal⟩
    intro hq
    rw [hfinal] at hq
    injection hq with hq
    have hqs := congrArg TaskInstance.status hq
    rw [hst] at hqs
    simp at hqs

/-- Witness: in the cancelled-dependency fixture the hypotheses of
`activateReadyTasks_iff_deps_done` hold and the blocked task is returned
unchanged. -/
theorem activateReadyTasks_iff_deps_done_witness :
    (activateReadyTasks "tn" "o1" c2Tasks).1.find? (fun u => u.id == c2TaskB.id) =
      some c2TaskB :=
  (activateReadyTasks_iff_deps_done "tn" "o1" c2Tasks c2TaskB (by decide)
    (List.mem_cons_of_mem _ (List.mem_cons_self _ _)) rfl rfl rfl).2 (by decide)

theorem lookup_of_mem_nodup {β : Type} :
    ∀ l : List (String × β), (l.map Prod.fst).Nodup → ∀ p ∈ l, l.lookup p.1 = some p.2 := by
  intro l
  induction l with
  | nil => intro _ p hp; simp at hp
  | cons x xs ih =>
    intro hnd p hp
    cases x with
    | mk a b =>
      simp only [List.map_cons, List.nodup_cons] at hnd
      rcases List.mem_cons.mp hp with hq | hq
      · subst hq
        simp [List.lookup]
      · have hne : (p.1 == a) = false := by
          refine beq_eq_false_iff_ne.mpr ?_
          intro he
          exact hnd.1 (he ▸ List.mem_map_of_mem Prod.fst hq)
        simp only [List.lookup, hne]
        exact ih hnd.2 p hq

theorem find?_markEventSynced_ne (l : List SyncEvent) (tid tid' : String)
    (h : tid' ≠ tid) :
    (markEventSynced l tid').find? (fun x => x.id == tid) =
      l.find? (fun x => x.id == tid) :=
  find?_update_ne (fun e => e.id) (fun e => { e with status := .synced })
    (fun _ => rfl) tid tid' h l

theorem ids_markEventSynced (l : List SyncEvent) (tid : String) :
    (markEventSynced l tid).map (fun e => e.id) = l.map (fun e => e.id) :=
  ids_update (fun e => e.id) (fun e => { e with status := .synced }) (fun _ => rfl) tid l

theorem find?_markEventFailed_ne (l : List SyncEvent) (tid tid' err : String)
    (h : tid' ≠ tid) :
    (markEventFailed l tid' err).find? (fun x => x.id == tid) =
      l.find? (fun x => x.id == tid) := by
  unfold markEventFailed
  cases hf : l.find? (fun e => e.id == tid') with
  | none => rfl
  | some ev =>
    exact find?_update_ne (fun e => e.id)
      (fun e => { e with
        status := (if ev.retryCount ≥ 5 then EventStatus.conflict else EventStatus.failed),
        lastError := some err, retryCount := ev.retryCount + 1 })
      (fun _ => rfl) tid tid' h l

theorem ids_markEventFailed (l : List SyncEvent) (tid err : String) :
    (markEventFailed l tid err).map (fun e => e.id) = l.map (fun e => e.id) := by
  unfold markEventFailed
  cases hf : l.find? (fun e => e.id == tid) with
  | none => rfl
  | some ev =>
    exact ids_update (fun e => e.id)
      (fun e => { e with
        status := (if ev.retryCount ≥ 5 then EventStatus.conflict else EventStatus.failed),
        lastError := some err, retryCount := ev.retryCount + 1 })
      (fun _ => rfl) tid l

theorem pushSingleEvent_preserve (outcome : SyncEvent → PushOutcome)
    (acc : List SyncEvent × List ℕ) (x e : SyncEvent) (hne : x.id ≠ e.id) :
    ((pushSingleEvent outcome acc x).1.map (fun v => v.id) =
      acc.1.map (fun v => v.id)) ∧
    ((pushSingleEvent outcome acc x).1.find? (fun v => v.id == e.id) =
      acc.1.find? (fun v => v.id == e.id)) := by
  unfold pushSingleEvent
  cases hf : acc.1.find? (fun v => v.id == x.id) with
  | none => exact ⟨rfl, rfl⟩
  | some cur =>
    have hcur : cur.id = x.id := by
      have := List.find?_some hf
      simpa using this
    have hcne : cur.id ≠ e.id := by rw [hcur]; exact hne
    dsimp only
    by_cases hs : cur.status = .synced
    · rw [if_pos hs]
      exact ⟨rfl, rfl⟩
    · rw [if_neg hs]
      cases outcome cur with
      | ok =>
        exact ⟨ids_markEventSynced acc.1 cur.id,
          find?_markEventSynced_ne acc.1 e.id cur.id hcne⟩
      | conflict409 =>
        exact ⟨ids_markEventSynced acc.1 cur.id,
          find?_markEventSynced_ne acc.1 e.id cur.id hcne⟩
      | clientError msg =>
        exact ⟨ids_markEventFailed acc.1 cur.id msg,
          find?_markEventFailed_ne acc.1 e.id cur.id msg hcne⟩
      | serverError msg =>
        exact ⟨ids_markEventFailed acc.1 cur.id msg,
          find?_markEventFailed_ne acc.1 e.id cur.id msg hcne⟩

theorem pushFold_preserve (outcome : SyncEvent → PushOutcome) (e : SyncEvent) :
    ∀ (L : List SyncEvent) (acc : List SyncEvent × List ℕ),
      (∀ x ∈ L, x.id ≠ e.id) →
      ((L.foldl (pushSingleEvent outcome) acc).1.map (fun v => v.id) =
        acc.1.map (fun v => v.id)) ∧
      ((L.foldl (pushSingleEvent outcome) acc).1.find? (fun v => v.id == e.id) =
        acc.1.find? (fun v => v.id == e.id)) := by
  intro L
  induction L with
  | nil => intro acc _; exact ⟨rfl, rfl⟩
  | cons x xs ih =>
    intro acc hne
    rw [List.foldl_cons]
    rcases ih (pushSingleEvent outcome acc x)
      (fun y hy => hne y (List.mem_cons_of_mem x hy)) with ⟨hi, hf⟩
    rcases pushSingleEvent_preserve outcome acc x e (hne x (List.mem_cons_self x xs))
      with ⟨pi, pf⟩
    exact ⟨hi.trans pi, hf.trans pf⟩

/-- C7: `markEventFailed` bumps `retryCount` by one and records the error;
the status becomes `conflict` exactly when the threshold of 5 is exceeded
by the new count (equivalently, the pre-increment count had reached 5) and
`failed` otherwise; and a `conflict` event is never retried: `pushEvents`
pushes only the `failed` and `pending` batches, so the event's queue entry
survives a full run unchanged. -/
theorem markEventFailed_conflict_threshold
    (events : List SyncEvent) (e : SyncEvent) (err : String)
    (hnd : (events.map (fun x => x.id)).Nodup) (he : e ∈ events) :
    ((markEventFailed events e.id err).find? (fun x => x.id == e.id) =
      some { e with
        status := (if e.retryCount ≥ 5 then EventStatus.conflict else EventStatus.failed),
        lastError := some err, retryCount := e.retryCount + 1 }) ∧
    (e.retryCount ≥ 5 ↔ 5 < e.retryCount + 1) ∧
    (e.status = .conflict → ∀ outcome : SyncEvent → PushOutcome,
      (pushEvents outcome events).1.find? (fun x => x.id == e.id) = some e) := by
  have hfind : events.find? (fun x => x.id == e.id) = some e :=
    find?_eq_self_of_nodup (fun x => x.id) events hnd e he
  refine ⟨?_, by omega, ?_⟩
  · unfold markEventFailed
    rw [hfind]
    exact find?_update_eq (fun x => x.id)
      (fun x => { x with
        status := (if e.retryCount ≥ 5 then EventStatus.conflict else EventStatus.failed),
        lastError := some err, retryCount := e.retryCount + 1 })
      (fun _ => rfl) e.id events e hfind
  · intro hconf outcome
    have key : ∀ r : List SyncEvent × List ℕ,
        (r.1.map (fun v => v.id)).Nodup →
        r.1.find? (fun v => v.id == e.id) = some e →
        ((getPendingEvents r.1).foldl (pushSingleEvent outcome) r).1.find?
          (fun v => v.id == e.id) = some e := by
      intro r hndv hfv
      have hf2 : ∀ x ∈ getPendingEvents r.1, x.id ≠ e.id := by
        intro x hx hxe
        have hxm := List.mem_filter.mp (mem_sortBySeq.mp hx)
        have hxfind : r.1.find? (fun u => u.id == x.id) = some x :=
          find?_eq_self_of_nodup (fun v => v.id) r.1 hndv x hxm.1
        rw [hxe, hfv] at hxfind
        injection hxfind with hxeq
        rw [← hxeq, hconf] at hxm
        simp at hxm
      rcases pushFold_preserve outcome e (getPendingEvents r.1) r hf2 with ⟨_, hfd2⟩
      rw [hfd2]
      exact hfv
    have hf1 : ∀ x ∈ getFailedEvents events, x.id ≠ e.id := by
      intro x hx hxe
      have hxm := List.mem_filter.mp (mem_sortBySeq.mp hx)
      have hxeq : x = e := inj_of_nodup_ids (fun v => v.id) events hnd x hxm.1 e he hxe
      rw [hxeq, hconf] at hxm
      simp at hxm
    rcases pushFold_preserve outcome e (getFailedEvents events) (events, ([] : List ℕ)) hf1
      with ⟨hi1, hfd1⟩
    exact key ((getFailedEvents events).foldl (pushSingleEvent outcome) (events, []))
      (by rw [hi1]; exact hnd) (by rw [hfd1]; exact hfind)

/-- Witness for C7 at the fixture queue: failing the at-threshold event
`f1` turns it `conflict` with count 6, and a full all-ok push run leaves
the already-`conflict` event `f2` untouched. -/
theorem markEventFailed_conflict_threshold_witness :
    ((markEventFailed c7Events "f1" "boom").find? (fun x => x.id == "f1") =
      some { id := "f1", sequence := 1, type := "task.complete",
             entityType := "task", entityId := "t1",
             status := EventStatus.conflict, lastError := some "boom",
             retryCount := 6 }) ∧
    ((pushEvents (fun _ => PushOutcome.ok) c7Events).1.find?
        (fun x => x.id == "f2") =
      some { id := "f2", sequence := 2, type := "task.complete",
             entityType := "task", entityId := "t2",
             status := EventStatus.conflict, lastError := some "HTTP 500",
             retryCount := 6 }) := by
  have h1 := markEventFailed_conflict_threshold c7Events
    { id := "f1", sequence := 1, type := "task.complete", entityType := "task",
      entityId := "t1", status := .failed, retryCount := 5, lastError := none }
    "boom" (by decide) (by decide)
  have h2 := markEventFailed_conflict_threshold c7Events
    { id := "f2", sequence := 2, type := "task.complete", entityType := "task",
      entityId := "t2", status := .conflict, retryCount := 6,
      lastError := some "HTTP 500" }
    "boom" (by decide) (by decide)
  exact ⟨h1.1, h2.2.2 rfl (fun _ => PushOutcome.ok)⟩

/-- Witness for C10 at the three-task fixture order: at most one flag is
set. -/
theorem calculateOrderETA_critical_flag_witness :
    (((calculateOrderETA c3Tasks c3Queues c3Now).flags.filter
        (fun f => f.2)).length ≤ 1) :=
  (calculateOrderETA_critical_flag c3Tasks c3Queues c3Now _ rfl
    (by decide) (by decide)).1

theorem pushFold_all_ok (outcome : SyncEvent → PushOutcome)
    (hok : ∀ x, outcome x = .ok) :
    ∀ (L : List SyncEvent) (acc : List SyncEvent × List ℕ),
      (L.map (fun v => v.id)).Nodup →
      (∀ x ∈ L, acc.1.find? (fun v => v.id == x.id) = some x ∧
        x.status = EventStatus.pending) →
      (L.foldl (pushSingleEvent outcome) acc).2 =
        acc.2 ++ L.map (fun v => v.sequence) := by
  intro L
  induction L with
  | nil => intro acc _ _; simp
  | cons x xs ih =>
    intro acc hnd hinv
    simp only [List.map_cons, List.nodup_cons] at hnd
    have hx := hinv x (List.mem_cons_self x xs)
    have hstep : pushSingleEvent outcome acc x =
        (markEventSynced acc.1 x.id, acc.2 ++ [x.sequence]) := by
      unfold pushSingleEvent
      rw [hx.1]
      dsimp only
      rw [if_neg (by rw [hx.2]; decide)]
      rw [hok x]
    rw [List.foldl_cons, hstep]
    rw [ih (markEventSynced acc.1 x.id, acc.2 ++ [x.sequence]) hnd.2 ?_]
    · rw [List.append_assoc]
      rfl
    · intro y hy
      have hne : x.id ≠ y.id := by
        intro hc
        exact hnd.1 (hc ▸ List.mem_map_of_mem (fun v => v.id) hy)
      refine ⟨?_, (hinv y (List.mem_cons_of_mem x hy)).2⟩
      have := find?_markEventSynced_ne acc.1 y.id x.id hne
      rw [this]
      exact (hinv y (List.mem_cons_of_mem x hy)).1

/-- C5 (amended): within one run of the push loop, and when every push
succeeds and no event is in the retry (`failed`) state, the sequences
applied to the authoritative side are exactly the pending events' sequences
in ascending order — the in-round ordering guarantee.  The cross-round
claim is refuted by `push_reorders_across_rounds`: an event that fails and
is retried in a later round is applied after events with higher
sequences. -/
theorem pushEvents_sequence_order
    (events : List SyncEvent) (outcome : SyncEvent → PushOutcome)
    (hnd : (events.map (fun x => x.id)).Nodup)
    (hnofail : ∀ x ∈ events, x.status ≠ EventStatus.failed)
    (hok : ∀ x, outcome x = .ok) :
    (pushEvents outcome events).2 =
      (getPendingEvents events).map (fun x => x.sequence) ∧
    List.Sorted (fun a b : ℕ => a ≤ b) ((pushEvents outcome events).2) := by
  have hfails : getFailedEvents events = [] := by
    unfold getFailedEvents
    have hfe : events.filter (fun e => e.status == EventStatus.failed) = [] := by
      rw [List.filter_eq_nil_iff]
      intro a ha
      simpa using hnofail a ha
    rw [hfe]
    rfl
  have h1 : pushEvents outcome events =
      (getPendingEvents events).foldl (pushSingleEvent outcome)
        (events, ([] : List ℕ)) := by
    unfold pushEvents
    rw [hfails]
    rfl
  have hPnd : ((getPendingEvents events).map (fun v => v.id)).Nodup := by
    have hsub : ((events.filter (fun e => e.status == EventStatus.pending)).map
        (fun v => v.id)).Nodup :=
      List.Nodup.sublist (List.Sublist.map (fun v => v.id)
        (List.filter_sublist events)) hnd
    exact (List.Perm.nodup_iff ((perm_sortBySeq _).map (fun v => v.id))).mpr hsub
  have hinv : ∀ x ∈ getPendingEvents events,
      events.find? (fun v => v.id == x.id) = some x ∧
        x.status = EventStatus.pending := by
    intro x hx
    have hxm := List.mem_filter.mp (mem_sortBySeq.mp hx)
    refine ⟨find?_eq_self_of_nodup (fun v => v.id) events hnd x hxm.1, ?_⟩
    simpa using hxm.2
  have hlog := pushFold_all_ok outcome hok (getPendingEvents events)
    (events, ([] : List ℕ)) hPnd hinv
  constructor
  · rw [h1, hlog]
    rfl
  · rw [h1, hlog]
    have hs := sorted_sortBySeq (events.filter (fun e => e.status == EventStatus.pending))
    exact List.pairwise_map.mpr hs

/-- Witness for C5 at the three-event fixture queue with an all-accepting
server: the log is the pending sequences in ascending order. -/
theorem pushEvents_sequence_order_witness :
    (pushEvents (fun _ => PushOutcome.ok) c5Events).2 =
      (getPendingEvents c5Events).map (fun x => x.sequence) ∧
    List.Sorted (fun a b : ℕ => a ≤ b)
      ((pushEvents (fun _ => PushOutcome.ok) c5Events).2) :=
  pushEvents_sequence_order c5Events (fun _ => PushOutcome.ok)
    (by decide) (by decide) (fun _ => rfl)

theorem pendingBack_refl {α : Type} (getId : α → String)
    (getStatus : α → TaskStatus) (l : List α) :
    PendingBack getId getStatus l l :=
  fun b hb hbp => ⟨b, hb, rfl, hbp⟩

theorem pendingBack_trans {α : Type} (getId : α → String)
    (getStatus : α → TaskStatus) {l1 l2 l3 : List α}
    (h12 : PendingBack getId getStatus l1 l2)
    (h23 : PendingBack getId getStatus l2 l3) :
    PendingBack getId getStatus l1 l3 := by
  intro b hb hbp
  rcases h23 b hb hbp with ⟨a, ha, haid, hap⟩
  rcases h12 a ha hap with ⟨c, hc, hcid, hcp⟩
  exact ⟨c, hc, hcid.trans haid, hcp⟩

theorem pendingBack_map {α : Type} (getId : α → String)
    (getStatus : α → TaskStatus) (f : α → α)
    (hgood : ∀ x, getId (f x) = getId x ∧
      (getStatus (f x) = .pending → getStatus x = .pending))
    (l : List α) : PendingBack getId getStatus l (l.map f) := by
  intro b hb hbp
  rcases List.mem_map.mp hb with ⟨a, ha, hfa⟩
  rw [← hfa] at hbp
  exact ⟨a, ha, by rw [← hfa, (hgood a).1], (hgood a).2 hbp⟩

theorem pendingBack_ite_map {α : Type} (getId : α → String)
    (getStatus : α → TaskStatus) (c : α → Prop) [DecidablePred c] (g : α → α)
    (hid : ∀ x, getId (g x) = getId x)
    (hst : ∀ x, getStatus (g x) = .pending → getStatus x = .pending)
    (l : List α) :
    PendingBack getId getStatus l (l.map (fun x => if c x then g x else x)) := by
  apply pendingBack_map
  intro x
  by_cases hc : c x
  · rw [if_pos hc]
    exact ⟨hid x, hst x⟩
  · rw [if_neg hc]
    exact ⟨rfl, id⟩

theorem pendingBack_foldl {α β γ : Type} (getId : α → String)
    (getStatus : α → TaskStatus) (proj : γ → List α) (t0 : List α)
    (step : γ → β → γ)
    (hstep : ∀ cur x, PendingBack getId getStatus (proj cur) (proj (step cur x))) :
    ∀ (L : List β) (cur : γ), PendingBack getId getStatus t0 (proj cur) →
      PendingBack getId getStatus t0 (proj (L.foldl step cur)) := by
  intro L
  induction L with
  | nil => intro cur h; exact h
  | cons x xs ih =>
    intro cur h
    rw [List.foldl_cons]
    exact ih (step cur x) (pendingBack_trans getId getStatus h (hstep cur x))

theorem pendingBack_actStep (acc : List TaskInstance × Nat) (task : TaskInstance) :
    PendingBack TaskInstance.id TaskInstance.status acc.1 (actStep acc task).1 := by
  unfold actStep
  by_cases h1 : task.dependsOn.isEmpty
  · rw [if_pos h1]
    exact pendingBack_ite_map TaskInstance.id TaskInstance.status
      (fun t => t.id = task.id) (fun t => { t with status := .queued })
      (fun _ => rfl) (fun x h => by simp at h) acc.1
  · rw [if_neg h1]
    by_cases h2 : depsDoneCount acc.1 task.dependsOn = task.dependsOn.length
    · rw [if_pos h2]
      exact pendingBack_ite_map TaskInstance.id TaskInstance.status
        (fun t => t.id = task.id) (fun t => { t with status := .queued })
        (fun _ => rfl) (fun x h => by simp at h) acc.1
    · rw [if_neg h2]
      exact pendingBack_refl _ _ _

theorem pendingBack_activate (tn o : String) (tasks : List TaskInstance) :
    PendingBack TaskInstance.id TaskInstance.status tasks
      (activateReadyTasks tn o tasks).1 := by
  unfold activateReadyTasks
  exact pendingBack_foldl TaskInstance.id TaskInstance.status Prod.fst tasks
    actStep (fun cur x => pendingBack_actStep cur x) _ (tasks, 0)
    (pendingBack_refl _ _ _)

theorem checkOrderCompletion_tasks (tn o : String) (now : ℤ) (st : EngineState) :
    (checkOrderCompletion tn o now st).1.tasks = st.tasks := by
  unfold checkOrderCompletion
  dsimp only
  split
  · rfl
  · split
    · rfl
    · rfl

theorem startTask_pendingBack (tid u tn : String) (now : ℤ) (st st' : EngineState)
    (h : startTask tid u tn now st = .ok st') :
    PendingBack TaskInstance.id TaskInstance.status st.tasks st'.tasks := by
  unfold startTask at h
  cases hf : findTask st.tasks tid tn with
  | none => rw [hf] at h; exact Except.noConfusion h
  | some task =>
    rw [hf] at h
    dsimp only at h
    by_cases hs : task.status ≠ .queued
    · rw [if_pos hs] at h
      exact Except.noConfusion h
    · rw [if_neg hs] at h
      injection h with h
      subst h
      exact pendingBack_ite_map TaskInstance.id TaskInstance.status
        (fun t => t.id = tid)
        (fun t =>
          { t with status := .in_progress, assignedToId := some u,
                   startedAt := some now })
        (fun _ => rfl) (fun x hx => by simp at hx) st.tasks

theorem completeTask_pendingBack (tid u tn : String) (now : ℤ) (st : EngineState)
    (r : EngineState × Bool × Bool) (h : completeTask tid u tn now st = .ok r) :
    PendingBack TaskInstance.id TaskInstance.status st.tasks r.1.tasks := by
  unfold completeTask at h
  cases hf : findTask st.tasks tid tn with
  | none => rw [hf] at h; exact Except.noConfusion h
  | some task =>
    rw [hf] at h
    dsimp only at h
    by_cases hs : ¬ (task.status = .queued ∨ task.status = .in_progress)
    · rw [if_pos hs] at h
      exact Except.noConfusion h
    · rw [if_neg hs] at h
      injection h with h
      subst h
      rw [checkOrderCompletion_tasks]
      dsimp only
      exact pendingBack_trans TaskInstance.id TaskInstance.status
        (pendingBack_ite_map TaskInstance.id TaskInstance.status
          (fun t => t.id = tid)
          (fun t =>
            { t with status := .done, completedAt := some now,
                     completedById := some u,
                     startedAt := some (task.startedAt.getD now) })
          (fun _ => rfl) (fun x hx => by simp at hx) st.tasks)
        (pendingBack_activate tn task.orderId _)

theorem completeSubtask_pendingBack (tid sid u tn : String) (now : ℤ)
    (st st' : EngineState) (h : completeSubtask tid sid u tn now st = .ok st') :
    PendingBack TaskInstance.id TaskInstance.status st.tasks st'.tasks := by
  unfold completeSubtask at h
  cases hf : st.subtasks.find? (fun s =>
      s.id == sid && s.taskInstanceId == tid && s.tenantId == tn) with
  | none => rw [hf] at h; exact Except.noConfusion h
  | some sub =>
    rw [hf] at h
    dsimp only at h
    by_cases hc : sub.isCompleted = true
    · rw [if_pos hc] at h
      injection h with h
      subst h
      exact pendingBack_refl _ _ _
    · rw [if_neg hc] at h
      injection h with h
      subst h
      exact pendingBack_refl _ _ _

theorem serverStep_pendingBack (st st' : EngineState) (h : ServerStep st st') :
    PendingBack TaskInstance.id TaskInstance.status st.tasks st'.tasks := by
  rcases h with ⟨op, hop⟩
  cases op with
  | activate tn o =>
    unfold applyServerOp at hop
    dsimp only at hop
    injection hop with hop
    subst hop
    exact pendingBack_activate tn o st.tasks
  | start tid u tn now =>
    unfold applyServerOp at hop
    dsimp only at hop
    cases he : startTask tid u tn now st with
    | error e => rw [he] at hop; exact Option.noConfusion hop
    | ok s2 =>
      rw [he] at hop
      simp only [Except.toOption] at hop
      injection hop with hop
      subst hop
      exact startTask_pendingBack tid u tn now st s2 he
  | complete tid u tn now =>
    unfold applyServerOp at hop
    dsimp only at hop
    cases he : completeTask tid u tn now st with
    | error e =>
      rw [he] at hop
      simp only [Except.toOption, Option.map_none] at hop
      exact Option.noConfusion hop
    | ok r =>
      rw [he] at hop
      simp only [Except.toOption, Option.map_some] at hop
      injection hop with hop
      rw [← hop]
      exact completeTask_pendingBack tid u tn now st r he
  | completeSub tid sid u tn now =>
    unfold applyServerOp at hop
    dsimp only at hop
    cases he : completeSubtask tid sid u tn now st with
    | error e => rw [he] at hop; exact Option.noConfusion hop
    | ok s2 =>
      rw [he] at hop
      simp only [Except.toOption] at hop
      injection hop with hop
      subst hop
      exact completeSubtask_pendingBack tid sid u tn now st s2 he

theorem startTaskOffline_pendingBack (tn u tid now : String) (db : LocalDB) :
    PendingBack LocalTask.id LocalTask.status db.tasks
      (startTaskOffline tn u tid now db).tasks :=
  pendingBack_ite_map LocalTask.id LocalTask.status
    (fun t => t.id = tid)
    (fun t =>
      { t with status := .in_progress, assignedToId := some u,
               startedAt := some now, syncStatus := .modified })
    (fun _ => rfl) (fun x hx => by simp at hx) db.tasks

theorem completeTaskOffline_pendingBack (tn u tid now : String) (db : LocalDB)
    (r : LocalDB × Bool) (h : completeTaskOffline tn u tid now db = .ok r) :
    PendingBack LocalTask.id LocalTask.status db.tasks r.1.tasks := by
  unfold completeTaskOffline at h
  cases hf : db.tasks.find? (fun t => t.id == tid) with
  | none => rw [hf] at h; exact Except.noConfusion h
  | some task =>
    rw [hf] at h
    dsimp only at h
    injection h with h
    rw [← h]
    exact pendingBack_foldl LocalTask.id LocalTask.status (fun l => l) db.tasks
      (fun cur depTask =>
        if depTask.status ≠ TaskStatus.pending then cur
        else if ¬ depTask.dependsOn.contains tid then cur
        else if depTask.dependsOn.all (fun depId =>
            match ((db.tasks.map (fun t =>
                if t.id = tid then
                  { t with status := .done, completedAt := some now,
                           completedById := some u,
                           startedAt := some (task.startedAt.getD now),
                           syncStatus := .modified }
                else t)).filter (fun t =>
                  t.orderId == task.orderId && t.tenantId == tn)).find?
                (fun t => t.id == depId) with
            | some dep => dep.status == TaskStatus.done
            | none => false) then
          cur.map (fun t =>
            if t.id = depTask.id then
              { t with status := .queued, syncStatus := .modified }
            else t)
        else cur)
      (fun cur x => by
        dsimp only
        by_cases h1 : x.status ≠ TaskStatus.pending
        · rw [if_pos h1]
          exact pendingBack_refl _ _ _
        · rw [if_neg h1]
          by_cases h2 : ¬ x.dependsOn.contains tid
          · rw [if_pos h2]
            exact pendingBack_refl _ _ _
          · rw [if_neg h2]
            by_cases h3 : x.dependsOn.all (fun depId =>
                match ((db.tasks.map (fun t =>
                    if t.id = tid then
                      { t with status := .done, completedAt := some now,
                               completedById := some u,
                               startedAt := some (task.startedAt.getD now),
                               syncStatus := .modified }
                    else t)).filter (fun t =>
                      t.orderId == task.orderId && t.tenantId == tn)).find?
                    (fun t => t.id == depId) with
                | some dep => dep.status == TaskStatus.done
                | none => false) = true
            · rw [if_pos h3]
              exact pendingBack_ite_map LocalTask.id LocalTask.status
                (fun t => t.id = x.id)
                (fun t => { t with status := .queued, syncStatus := .modified })
                (fun _ => rfl) (fun y hy => by simp at hy) cur
            · rw [if_neg h3]
              exact pendingBack_refl _ _ _)
      ((db.tasks.map (fun t =>
          if t.id = tid then
            { t with status := .done, completedAt := some now,
                     completedById := some u,
                     startedAt := some (task.startedAt.getD now),
                     syncStatus := .modified }
          else t)).filter (fun t =>
            t.orderId == task.orderId && t.tenantId == tn))
      (db.tasks.map (fun t =>
        if t.id = tid then
          { t with status := .done, completedAt := some now,
                   completedById := some u,
                   startedAt := some (task.startedAt.getD now),
                   syncStatus := .modified }
        else t))
      (pendingBack_ite_map LocalTask.id LocalTask.status
        (fun t => t.id = tid)
        (fun t =>
          { t with status := .done, completedAt := some now,
                   completedById := some u,
                   startedAt := some (task.startedAt.getD now),
                   syncStatus := .modified })
        (fun _ => rfl) (fun x hx => by simp at hx) db.tasks)

theorem offlineStep_pendingBack (db db' : LocalDB) (h : OfflineStep db db') :
    PendingBack LocalTask.id LocalTask.status db.tasks db'.tasks := by
  rcases h with ⟨op, hop⟩
  cases op with
  | start tn u tid now =>
    unfold applyOfflineOp at hop
    dsimp only at hop
    injection hop with hop
    subst hop
    exact startTaskOffline_pendingBack tn u tid now db
  | complete tn u tid now =>
    unfold applyOfflineOp at hop
    dsimp only at hop
    cases he : completeTaskOffline tn u tid now db with
    | error e =>
      rw [he] at hop
      simp only [Except.toOption, Option.map_none] at hop
      exact Option.noConfusion hop
    | ok r =>
      rw [he] at hop
      simp only [Except.toOption, Option.map_some] at hop
      injection hop with hop
      rw [← hop]
      exact completeTaskOffline_pendingBack tn u tid now db r he
  | completeSub tn u tid sid now =>
    unfold applyOfflineOp at hop
    dsimp only at hop
    injection hop with hop
    subst hop
    exact pendingBack_refl _ _ _

/-- C9: activation monotonicity.  Along any sequence of successful engine
operations (activation scans, `start`, `complete`, `completeSubtask`) —
authoritative or local-mirror — a task instance that is `blocked`
(`pending`) afterwards was already `blocked` before: no operation ever
sends a task from `queued`, `in_progress`, `done` or `cancelled` back to
`pending`. -/
theorem no_return_to_blocked :
    (∀ st st' : EngineState, Relation.ReflTransGen ServerStep st st' →
      PendingBack TaskInstance.id TaskInstance.status st.tasks st'.tasks) ∧
    (∀ db db' : LocalDB, Relation.ReflTransGen OfflineStep db db' →
      PendingBack LocalTask.id LocalTask.status db.tasks db'.tasks) := by
  constructor
  · intro st st' h
    induction h with
    | refl => exact pendingBack_refl _ _ _
    | tail _ hstep ih =>
      exact pendingBack_trans _ _ ih (serverStep_pendingBack _ _ hstep)
  · intro db db' h
    induction h with
    | refl => exact pendingBack_refl _ _ _
    | tail _ hstep ih =>
      exact pendingBack_trans _ _ ih (offlineStep_pendingBack _ _ hstep)

/-- Witness for C9 on the fixture states: after one `start` step, the task
`y` that is still `pending` traces back to a `pending` task of the same id
in the pre-state, on both the authoritative and the local-mirror side. -/
theorem no_return_to_blocked_witness :
    (∃ a ∈ c9State.tasks, a.id = c9TaskY.id ∧ a.status = .pending) ∧
    (∃ a ∈ c9Db.tasks, a.id = c9LocalY.id ∧ a.status = .pending) := by
  constructor
  · exact (no_return_to_blocked).1 c9State c9State'
      (Relation.ReflTransGen.single ⟨ServerOp.start "x" "u1" "tn" 1000, rfl⟩)
      c9TaskY (List.Mem.tail _ (List.Mem.head _)) rfl
  · exact (no_return_to_blocked).2 c9Db c9Db'
      (Relation.ReflTransGen.single
        ⟨OfflineOp.start "tn" "u1" "x" "2026-10-11T12:00:00Z", rfl⟩)
      c9LocalY (List.Mem.tail _ (List.Mem.head _)) rfl

theorem foldl_add_eq_sum : ∀ (l : List ℚ) (a : ℚ), l.foldl (· + ·) a = a + l.sum := by
  intro l
  induction l with
  | nil => intro a; simp
  | cons x xs ih =>
    intro a
    rw [List.foldl_cons, ih, List.sum_cons]
    ring


theorem foldl_max_of_shape {X : Type} (f : ℚ → X → ℚ) (g : X → ℚ)
    (hf : ∀ (a : ℚ) (i : X), 0 ≤ a → f a i = max a (g i)) :
    ∀ (items : List X) (a : ℚ), 0 ≤ a →
      items.foldl f a = listMax (a :: items.map g) := by
  intro items
  induction items with
  | nil => intro a _; rfl
  | cons x xs ih =>
    intro a ha
    rw [List.foldl_cons, hf a x ha]
    have h2 : listMax (a :: (x :: xs).map g) = listMax (max a (g x) :: xs.map g) := by
      show ((x :: xs).map g).foldl max a = (xs.map g).foldl max (max a (g x))
      rw [List.map_cons, List.foldl_cons]
    rw [h2]
    exact ih (max a (g x)) (le_trans ha (le_max_left a (g x)))

/-- C8 (amended): `suggestOrderTime` is not the Kahn traversal of
`calculateOrderETA` run hypothetically (that reading is refuted by
`suggest_differs_from_eta`); it is the phase-structured approximation:
per item, the per-phase maxima of station queue wait plus task estimate are
summed over the phases, the result is maximised over the items, and the
ceiling plus the fixed 2-minute buffer is returned — dependencies play no
role. -/
theorem suggestOrderTime_eq_phase_sum
    (queues : List (String × StationQueue)) (menuItems : List MenuItemW)
    (hnd : (queues.map Prod.fst).Nodup) :
    suggestOrderTime queues menuItems =
      Int.ceil (specSuggestMinutes queues menuItems) + 2 := by
  unfold suggestOrderTime specSuggestMinutes
  dsimp only
  refine congrArg (fun q : ℚ => Int.ceil q + 2) ?_
  refine foldl_max_of_shape _ _ ?_ menuItems 0 le_rfl
  intro a i ha
  dsimp only
  cases hi : i.workflowTemplate with
  | none =>
    dsimp only
    exact (max_eq_left ha).symm
  | some d =>
    dsimp only
    refine congrArg (fun q : ℚ => max a q) ?_
    rw [foldl_add_eq_sum, zero_add]
    refine congrArg List.sum (List.map_congr_left ?_)
    intro phase _
    refine foldl_max_of_shape _ _ ?_ phase.tasks 0 le_rfl
    intro pm t hpm
    dsimp only
    refine congrArg (fun q : ℚ => max pm q) ?_
    refine congrArg (fun q : ℚ => q + t.estimated_minutes) ?_
    cases hff : queues.find? (fun p => nameMatches p.2.stationName t.station_type) with
    | none => rfl
    | some p =>
      have hl := lookup_of_mem_nodup queues hnd p (List.mem_of_find?_eq_some hff)
      simp only [Option.map, hl]

/-- Witness for C8 at the fixture queues and item: the estimator equals
the ceiling of the phase-sum formula plus the 2-minute buffer. -/
theorem suggestOrderTime_eq_phase_sum_witness :
    suggestOrderTime c3Queues [c8Item] =
      Int.ceil (specSuggestMinutes c3Queues [c8Item]) + 2 :=
  suggestOrderTime_eq_phase_sum c3Queues [c8Item] (by decide)

/-- C2 counterexample: task `b`'s only dependency is the `cancelled` task
`a`; per the claim a `cancelled` dependency counts as satisfied, so `b`
should be promoted — but `activateReadyTasks` counts only `done` rows and
leaves `b` `pending` (blocked forever). -/
theorem activation_cancelled_counterexample :
    c2TaskA.status = .cancelled ∧
    c2TaskB.dependsOn = ["a"] ∧
    c2TaskB.status = .pending ∧
    (activateReadyTasks "tn" "o1" c2Tasks).1.find? (fun u => u.id == "b") =
      some c2TaskB :=
  ⟨rfl, rfl, rfl, rfl⟩
